import Mathlib

/-!
# Admin dashboard scripts

A shallow embedding of two browser scripts of the dashboard:

* `static/js/admin_profile.js`: toast notifications, the contact modal, the
  profile photo upload handler and the contact form handler;
* `staticfiles/js/admin_navbar.js`: the navigation sidebar.

The page is a record of the DOM nodes the scripts read and write.  Event
listeners are functions on that record.  Timers are entries of a queue with a
due time in milliseconds, fired by `tick`.  A `fetch` call appends to a log and
leaves a pending request, which `settle` later resolves or rejects.
-/

namespace Elog

/-! ## DOM primitives -/

/-- The token list behind `element.classList`. -/
abbrev ClassList := List String

/-- The method `classList.contains(token)`. -/
def classContains (cl : ClassList) (token : String) : Bool :=
  cl.contains token

/-- The method `classList.add(t1, t2, ...)`: every token not yet in the list is appended. -/
def classAdd (cl : ClassList) (tokens : List String) : ClassList :=
  tokens.foldl (fun acc t => if acc.contains t then acc else acc ++ [t]) cl

/-- The method `classList.remove(t1, t2, ...)`: every occurrence of the tokens is dropped. -/
def classRemove (cl : ClassList) (tokens : List String) : ClassList :=
  cl.filter (fun c => !tokens.contains c)

/-- A character that the HTML parser takes as text as it stands: not `<`, which
opens a tag, not `&`, which opens a character reference, not a carriage return,
which is turned into a line feed, and not NUL, which is dropped. -/
def plainChar (c : Char) : Bool :=
  c != '<' && c != '&' && c != Char.ofNat 13 && c != Char.ofNat 0

/-- The text an element shows after an HTML source was assigned to its
`innerHTML`.  The parser is the browser; only the case of a source of plain
characters is modelled, which becomes one text node with the same characters.
For a source with markup the text is not determined here. -/
def shownText (html : String) : Option String :=
  if html.toList.all plainChar then some html else none

/-- The JavaScript expression `v || fallback` for an optional string `v`: the
fallback is taken when `v` is absent and also when it is the empty string,
the only falsy string. -/
def orDefault (v : Option String) (fallback : String) : String :=
  match v with
  | some s => if s = "" then fallback else s
  | none => fallback

/-- `Math.round(size / 1024)` for a byte count.  The division by a power of two
is exact on the doubles that hold file sizes, and `Math.round` takes the
nearest integer with halves going up, which on non-negative integers is the
floor of `(size + 512) / 1024`. -/
def roundKB (size : Nat) : Nat :=
  (size + 512) / 1024

/-! ## Data model of `admin_profile.js` -/

/-- A `File` of a file input, with the attributes the script reads. -/
structure File where
  name : String
  size : Nat
  type : String
  deriving DecidableEq, Repr

/-- A toast node built by `showToast`. -/
structure ToastEl where
  classes : ClassList
  icon : ClassList
  text : String
  attached : Bool
  deriving DecidableEq, Repr

/-- The three displayed contact fields. -/
inductive Field
  | phone
  | city
  | country
  deriving DecidableEq, Repr

/-- The callbacks the script hands to `setTimeout`. -/
inductive Callback
  | toastAnimateIn (toast : Nat)
  | toastAutoRemove (toast : Nat)
  | toastDetach (toast : Nat)
  | modalContentIn
  | modalHide
  | clearHighlight (field : Field)
  | delayedCloseModal
  deriving DecidableEq, Repr

/-- A scheduled timer: the time it is due and its callback. -/
structure Timer where
  due : Nat
  cb : Callback
  deriving DecidableEq, Repr

/-- The preview image, `[alt="Profile Photo"]`. -/
structure ImgEl where
  src : String
  opacity : String
  deriving DecidableEq, Repr

/-- A form element; only its `action` is read. -/
structure FormEl where
  action : String
  deriving DecidableEq, Repr

/-- The file input `#profile-photo-upload`. -/
structure FileInput where
  files : List File
  value : String
  disabled : Bool
  deriving DecidableEq, Repr

/-- One of `#phone-text`, `#city-text`, `#country-text`. -/
structure FieldEl where
  classes : ClassList
  backgroundColor : String
  textContent : String
  deriving DecidableEq, Repr

/-- The status block `#contactFormStatus`.  Its `innerHTML` is kept as the parts
the three templates differ in: the classes of the icon and the HTML source put
between `<p ...>` and `</p>`.  That source is parsed by the browser; what the
paragraph then shows is `shownText` of it. -/
structure StatusEl where
  classes : ClassList
  icon : String
  paragraphHTML : String
  deriving DecidableEq, Repr

/-- Which form a request carries. -/
inductive FormId
  | photo
  | contact
  deriving DecidableEq, Repr

/-- A call of `fetch`. -/
structure Request where
  url : String
  method : String
  headers : List (String × String)
  body : FormId
  deriving DecidableEq, Repr

/-- A request in flight, with what its handlers captured: the photo handlers
close over `originalOpacity`. -/
inductive Pending
  | photo (originalOpacity : String)
  | contact
  deriving DecidableEq, Repr

/-- The JSON body of a response, of the shape
`{ success, error?, profile_photo?, phone?, city?, country? }`. -/
structure Data where
  success : Bool
  error : Option String
  profile_photo : Option String
  phone : Option String
  city : Option String
  country : Option String
  deriving DecidableEq, Repr

/-- How a request ends: the promise chain rejects (no response, or a body that
is not JSON), or it delivers the parsed body. -/
inductive Outcome
  | rejected
  | resolved (data : Data)
  deriving DecidableEq, Repr

/-- The page.  The nodes looked up by id inside the contact handler, the modal
and the contact fields are part of the page; the photo form and the preview
image may be missing. -/
structure Page where
  now : Nat
  timers : List Timer
  toastContainer : Bool
  toasts : List ToastEl
  contactModal : ClassList
  contactModalContent : ClassList
  photoInput : FileInput
  photoForm : Option FormEl
  profileImg : Option ImgEl
  contactForm : FormEl
  submitBtnDisabled : Bool
  btnText : String
  loadingSpinner : ClassList
  formStatus : StatusEl
  phoneText : FieldEl
  cityText : FieldEl
  countryText : FieldEl
  fetchLog : List Request
  pending : List Pending
  deriving DecidableEq, Repr

/-! ## Timers and toasts -/

/-- The call `setTimeout(cb, delay)`. -/
def setTimeout (cb : Callback) (delay : Nat) (p : Page) : Page :=
  { p with timers := p.timers ++ [{ due := p.now + delay, cb := cb }] }

/-- Applies `f` to toast number `i`, if there is one. -/
def modifyToast (i : Nat) (f : ToastEl → ToastEl) (p : Page) : Page :=
  { p with toasts := p.toasts.modify f i }

/-- The function `showToast(message, type)`.  The new toast is the next entry of
`toasts`; it is appended to the container, which is created when missing. -/
def showToast (message : String) (type : String) (p : Page) : Page :=
  let toast : ToastEl :=
    { classes := ["px-4", "py-3", "rounded-lg", "shadow-lg", "flex", "items-center",
        if type = "success" then "bg-green-500" else "bg-red-500",
        "text-white", "transform", "transition-all", "duration-300", "translate-y-2",
        "opacity-0"],
      icon := ["fas", if type = "success" then "fa-check-circle" else "fa-exclamation-circle",
        "mr-2"],
      text := message,
      attached := true }
  let i := p.toasts.length
  setTimeout (.toastAutoRemove i) 5000
    (setTimeout (.toastAnimateIn i) 10
      { p with toastContainer := true, toasts := p.toasts ++ [toast] })

/-- The function `removeToast(toast)`. -/
def removeToast (i : Nat) (p : Page) : Page :=
  setTimeout (.toastDetach i) 300
    (modifyToast i (fun t => { t with classes := classAdd t.classes ["translate-y-2", "opacity-0"] }) p)

/-- Whether toast `i` exists and is in the document. -/
def toastAttached (i : Nat) (p : Page) : Bool :=
  match p.toasts.get? i with
  | some t => t.attached
  | none => false

/-! ## The contact modal -/

/-- The function `openModal()`. -/
def openModal (p : Page) : Page :=
  setTimeout .modalContentIn 50 { p with contactModal := classRemove p.contactModal ["hidden"] }

/-- The function `closeModal()`. -/
def closeModal (p : Page) : Page :=
  let content := classRemove p.contactModalContent ["scale-100", "opacity-100"]
  setTimeout .modalHide 300
    { p with contactModalContent := classAdd content ["scale-95", "opacity-0"] }

/-! ## Contact fields -/

/-- The node of a contact field. -/
def getField (f : Field) (p : Page) : FieldEl :=
  match f with
  | .phone => p.phoneText
  | .city => p.cityText
  | .country => p.countryText

/-- Writes the node of a contact field. -/
def setField (f : Field) (el : FieldEl) (p : Page) : Page :=
  match f with
  | .phone => { p with phoneText := el }
  | .city => { p with cityText := el }
  | .country => { p with countryText := el }

/-- The value of the response that belongs to a contact field. -/
def fieldValue (f : Field) (data : Data) : Option String :=
  match f with
  | .phone => data.phone
  | .city => data.city
  | .country => data.country

/-- The body of the `forEach` over the three contact fields in the success
branch of the contact handler. -/
def highlightField (data : Data) (p : Page) (f : Field) : Page :=
  let el := getField f p
  setTimeout (.clearHighlight f) 2000
    (setField f
      { classes := classAdd el.classes ["transition-all", "duration-500"],
        backgroundColor := "rgba(16, 185, 129, 0.2)",
        textContent := orDefault (fieldValue f data) "Not provided" } p)

/-- Runs a timer callback. -/
def runCallback (cb : Callback) (p : Page) : Page :=
  match cb with
  | .toastAnimateIn i =>
    modifyToast i (fun t => { t with classes := classRemove t.classes ["translate-y-2", "opacity-0"] }) p
  | .toastAutoRemove i => removeToast i p
  | .toastDetach i => modifyToast i (fun t => { t with attached := false }) p
  | .modalContentIn =>
    let content := classRemove p.contactModalContent ["scale-95", "opacity-0"]
    { p with contactModalContent := classAdd content ["scale-100", "opacity-100"] }
  | .modalHide => { p with contactModal := classAdd p.contactModal ["hidden"] }
  | .clearHighlight f => setField f { getField f p with backgroundColor := "transparent" } p
  | .delayedCloseModal => closeModal p

/-- One millisecond passes: the clock advances and the timers that are due run
in the order they were scheduled. -/
def tick (p : Page) : Page :=
  let t := p.now + 1
  (p.timers.filter (fun x => decide (x.due ≤ t))).foldl (fun q x => runCallback x.cb q)
    { p with now := t, timers := p.timers.filter (fun x => decide (t < x.due)) }

/-! ## The profile photo upload -/

/-- The constant `maxSize` of the change handler. -/
def maxSize : Nat := 120 * 1024

/-- The constant `allowedTypes` of the change handler. -/
def allowedTypes : List String := ["image/jpeg", "image/jpg", "image/png", "image/gif"]

/-- The call `fetch(url, { method: 'POST', body, headers })`: the request is
logged and stays pending with what its handlers captured. -/
def fetch (url : String) (body : FormId) (k : Pending) (p : Page) : Page :=
  { p with
    fetchLog := p.fetchLog ++
      [{ url := url, method := "POST", headers := [("X-Requested-With", "XMLHttpRequest")],
         body := body }],
    pending := p.pending ++ [k] }

/-- The statement `this.value = ''` on the file input, which also empties its file list. -/
def clearPhotoInput (p : Page) : Page :=
  { p with photoInput := { p.photoInput with value := "", files := [] } }

/-- The text of the toast for a file that is too large. -/
def tooLargeMessage (size : Nat) : String :=
  "File size too large. Maximum allowed size is 120KB. Your file is " ++
    toString (roundKB size) ++ "KB."

/-- The statement `profileImg.style.opacity = v`. -/
def setOpacity (v : String) (p : Page) : Page :=
  { p with profileImg := p.profileImg.map (fun img => { img with opacity := v }) }

/-- The listener of `change` on `#profile-photo-upload`.  A missing preview image
raises a `TypeError` at `profileImg.style`, a missing form at `new FormData(form)`;
in both cases the listener stops there. -/
def photoChangeHandler (p : Page) : Page :=
  match p.photoInput.files with
  | [] => p
  | file :: _ =>
    if file.size > maxSize then
      clearPhotoInput (showToast (tooLargeMessage file.size) "error" p)
    else if !allowedTypes.contains file.type then
      clearPhotoInput
        (showToast "Invalid file type. Only JPEG, PNG, and GIF images are allowed." "error" p)
    else
      match p.profileImg with
      | none => p
      | some img =>
        let originalOpacity := img.opacity
        let p1 := setOpacity "0.5" p
        match p.photoForm with
        | none => p1
        | some form => fetch form.action .photo (.photo originalOpacity) p1

/-- The browser puts the chosen files into the input. -/
def chooseFiles (files : List File) (p : Page) : Page :=
  { p with photoInput :=
      { p.photoInput with files := files, value := (files.head?.map (·.name)).getD "" } }

/-- The user picks files: the browser fills the input and dispatches `change`. -/
def selectPhoto (files : List File) (p : Page) : Page :=
  photoChangeHandler (chooseFiles files p)

/-- The `then` handler of the photo upload. -/
def photoThen (originalOpacity : String) (data : Data) (p : Page) : Page :=
  if data.success then
    showToast "Profile photo updated successfully!" "success"
      (setOpacity originalOpacity
        { p with profileImg :=
            p.profileImg.map (fun img => { img with src := data.profile_photo.getD "undefined" }) })
  else
    showToast (orDefault data.error "Failed to update profile photo") "error"
      (setOpacity originalOpacity p)

/-- The `catch` handler of the photo upload. -/
def photoCatch (originalOpacity : String) (p : Page) : Page :=
  showToast "Network error. Please try again." "error" (setOpacity originalOpacity p)

/-! ## The contact form -/

/-- The loading state the submit listener shows before it sends. -/
def showLoading (p : Page) : Page :=
  { p with
    submitBtnDisabled := true,
    btnText := "Saving...",
    loadingSpinner := classRemove p.loadingSpinner ["hidden"] }

/-- The listener of `submit` on `#contactForm`, up to the `fetch` call. -/
def contactSubmitHandler (p : Page) : Page :=
  fetch p.contactForm.action .contact .contact (showLoading p)

/-- The statements that reset the button, at the head of both handlers. -/
def resetButton (p : Page) : Page :=
  { p with
    submitBtnDisabled := false,
    btnText := "Save Changes",
    loadingSpinner := classAdd p.loadingSpinner ["hidden"] }

/-- The status block after one of the three templates is written into it. -/
def setStatus (drop : List String) (put : List String) (icon html : String) (p : Page) :
    Page :=
  { p with formStatus :=
      { classes := classAdd (classRemove p.formStatus.classes drop) put,
        icon := icon,
        paragraphHTML := html } }

/-- The `then` handler of the contact form. -/
def contactThen (data : Data) (p : Page) : Page :=
  let p1 := resetButton p
  if data.success then
    let p2 := setStatus ["hidden", "bg-red-100", "text-red-700"] ["bg-green-100", "text-green-700"]
      "fas fa-check-circle text-green-500 text-xl" "Contact information updated successfully!" p1
    let p3 := [Field.phone, Field.city, Field.country].foldl (highlightField data) p2
    setTimeout .delayedCloseModal 1500 p3
  else
    setStatus ["hidden", "bg-green-100", "text-green-700"] ["bg-red-100", "text-red-700"]
      "fas fa-exclamation-circle text-red-500 text-xl"
      (orDefault data.error "An error occurred. Please try again.") p1

/-- The `catch` handler of the contact form. -/
def contactCatch (p : Page) : Page :=
  setStatus ["hidden", "bg-green-100", "text-green-700"] ["bg-red-100", "text-red-700"]
    "fas fa-wifi-slash text-red-500 text-xl"
    "Network error. Please check your connection and try again." (resetButton p)

/-! ## Events -/

/-- Runs the handlers of a pending request on its outcome. -/
def runHandlers (k : Pending) (o : Outcome) (p : Page) : Page :=
  match k, o with
  | .photo originalOpacity, .resolved data => photoThen originalOpacity data p
  | .photo originalOpacity, .rejected => photoCatch originalOpacity p
  | .contact, .resolved data => contactThen data p
  | .contact, .rejected => contactCatch p

/-- The pending request number `k` ends with outcome `o`. -/
def settle (k : Nat) (o : Outcome) (p : Page) : Page :=
  match p.pending.get? k with
  | none => p
  | some r => runHandlers r o { p with pending := p.pending.eraseIdx k }

/-- A click on the submit button of the contact form.  The browser submits the
form only when the button is enabled. -/
def contactSubmitClick (p : Page) : Page :=
  if p.submitBtnDisabled then p else contactSubmitHandler p

/-- A click on the close button of toast `i`, which takes a toast that is in
the document. -/
def toastCloseClick (i : Nat) (p : Page) : Page :=
  if toastAttached i p then removeToast i p else p

/-- The listener of `click` on the modal: it closes when the modal itself is the target. -/
def modalClick (targetIsModal : Bool) (p : Page) : Page :=
  if targetIsModal then closeModal p else p

/-- The listener of `keydown` on the document. -/
def keydown (key : String) (p : Page) : Page :=
  if key = "Escape" then
    if !classContains p.contactModal "hidden" then closeModal p else p
  else p

/-- What can happen on the profile page. -/
inductive Event
  | tick
  | toastCloseClick (i : Nat)
  | selectPhoto (files : List File)
  | contactSubmitClick
  | settle (k : Nat) (o : Outcome)
  | openModalClick
  | closeModalClick
  | modalClick (targetIsModal : Bool)
  | keydown (key : String)
  deriving DecidableEq, Repr

/-- The page after an event. -/
def step (p : Page) (e : Event) : Page :=
  match e with
  | .tick => tick p
  | .toastCloseClick i => toastCloseClick i p
  | .selectPhoto files => selectPhoto files p
  | .contactSubmitClick => contactSubmitClick p
  | .settle k o => settle k o p
  | .openModalClick => openModal p
  | .closeModalClick => closeModal p
  | .modalClick b => modalClick b p
  | .keydown key => keydown key p

/-- The page after a sequence of events. -/
def run (p : Page) (es : List Event) : Page :=
  es.foldl step p

/-- The number of requests in flight that a control started. -/
def inFlight (f : FormId) (p : Page) : Nat :=
  match f with
  | .photo => (p.pending.filter (fun k => k != Pending.contact)).length
  | .contact => (p.pending.filter (fun k => k == Pending.contact)).length

/-- A page right after load: closed modal, idle form, nothing scheduled. -/
def initialPage : Page :=
  { now := 0,
    timers := [],
    toastContainer := false,
    toasts := [],
    contactModal := ["fixed", "inset-0", "hidden"],
    contactModalContent := ["scale-95", "opacity-0"],
    photoInput := { files := [], value := "", disabled := false },
    photoForm := some { action := "/profile/photo/" },
    profileImg := some { src := "/media/avatar.png", opacity := "" },
    contactForm := { action := "/profile/contact/" },
    submitBtnDisabled := false,
    btnText := "Save Changes",
    loadingSpinner := ["animate-spin", "hidden"],
    formStatus := { classes := ["hidden"], icon := "", paragraphHTML := "" },
    phoneText := { classes := [], backgroundColor := "", textContent := "Not provided" },
    cityText := { classes := [], backgroundColor := "", textContent := "Not provided" },
    countryText := { classes := [], backgroundColor := "", textContent := "Not provided" },
    fetchLog := [],
    pending := [] }

/-- Whether a file passes the two checks of the change handler: at most
`120 * 1024` bytes and a type of the allow-list. -/
def acceptable (file : File) : Prop :=
  file.size ≤ 120 * 1024 ∧
    file.type ∈ ["image/jpeg", "image/jpg", "image/png", "image/gif"]

instance (file : File) : Decidable (acceptable file) := by
  unfold acceptable; infer_instance

/-- The request the photo handler sends to the action of its form. -/
def photoRequest (form : FormEl) : Request :=
  { url := form.action, method := "POST",
    headers := [("X-Requested-With", "XMLHttpRequest")], body := .photo }

/-- A PNG of 1000 bytes. -/
def smallPng : File := { name := "a.png", size := 1000, type := "image/png" }

/-- A second acceptable file, a GIF of 2000 bytes. -/
def smallGif : File := { name := "b.gif", size := 2000, type := "image/gif" }

/-- A successful photo response. -/
def photoOk : Data :=
  { success := true, error := none, profile_photo := some "/media/new.png",
    phone := none, city := none, country := none }

/-- The inline opacity of the preview image, when the image exists. -/
def previewOpacity (p : Page) : Option String :=
  p.profileImg.map (·.opacity)

/-- A JPEG of 130 KB, above the limit. -/
def largeJpeg : File := { name := "big.jpg", size := 133120, type := "image/jpeg" }

/-- A successful contact response without a country. -/
def contactOk : Data :=
  { success := true, error := none, profile_photo := none,
    phone := some "555-1234", city := some "Springfield", country := none }

/-- A successful contact response whose phone is the empty string. -/
def contactEmptyPhone : Data :=
  { success := true, error := none, profile_photo := none,
    phone := some "", city := some "Springfield", country := none }

/-- A failure response whose error is the empty string. -/
def failEmptyError : Data :=
  { success := false, error := some "", profile_photo := none,
    phone := none, city := none, country := none }

/-- A failure response with a message of the server. -/
def failWithError : Data :=
  { success := false, error := some "Phone number is invalid", profile_photo := none,
    phone := none, city := none, country := none }

/-- The text of the toast shown last. -/
def lastToastText (p : Page) : Option String :=
  p.toasts.getLast?.map (·.text)

/-! ## The navigation sidebar, `admin_navbar.js` -/

/-- The nodes the sidebar script reads and writes, and the width of the window.
Every node looked up by id may be missing. -/
structure NavPage where
  innerWidth : Nat
  body : ClassList
  sidebar : Option ClassList
  sidebarBackdrop : Option ClassList
  openSidebarButton : Bool
  closeSidebarButton : Bool
  addDataButton : Bool
  addDataMenu : Option ClassList
  dropdownArrow : Option String
  deriving DecidableEq, Repr

/-- Where the target of a click lies: the results of the `contains` calls of
the document listener. -/
structure Target where
  inSidebar : Bool
  inOpenButton : Bool
  inAddDataButton : Bool
  inAddDataMenu : Bool
  deriving DecidableEq, Repr

/-- The function `openSidebar()`. -/
def openSidebar (n : NavPage) : NavPage :=
  match n.sidebar, n.sidebarBackdrop with
  | some sb, some bd =>
    let n1 := { n with
      sidebar := some (classRemove sb ["-translate-x-full"]),
      sidebarBackdrop := some (classRemove bd ["hidden"]) }
    if n.innerWidth < 768 then { n1 with body := classAdd n.body ["overflow-hidden"] } else n1
  | _, _ => n

/-- The function `closeSidebar()`. -/
def closeSidebar (n : NavPage) : NavPage :=
  match n.sidebar, n.sidebarBackdrop with
  | some sb, some bd =>
    { n with
      sidebar := some (classAdd sb ["-translate-x-full"]),
      sidebarBackdrop := some (classAdd bd ["hidden"]),
      body := classRemove n.body ["overflow-hidden"] }
  | _, _ => n

/-- The sidebar part of the `click` listener of the document. -/
def outsideCloseSidebar (t : Target) (n : NavPage) : NavPage :=
  match n.sidebar with
  | some sb =>
    if !t.inSidebar && n.openSidebarButton && !t.inOpenButton then
      if !classContains sb "-translate-x-full" then closeSidebar n else n
    else n
  | none => n

/-- The dropdown part of the `click` listener of the document. -/
def outsideCloseDropdown (t : Target) (n : NavPage) : NavPage :=
  match n.addDataMenu with
  | some menu =>
    if !classContains menu "hidden" && n.addDataButton && !t.inAddDataButton
        && !t.inAddDataMenu then
      { n with
        addDataMenu := some (classAdd menu ["hidden"]),
        dropdownArrow := n.dropdownArrow.map (fun _ => "rotate(0deg)") }
    else n
  | none => n

/-- The `click` listener of the document. -/
def documentClick (t : Target) (n : NavPage) : NavPage :=
  outsideCloseDropdown t (outsideCloseSidebar t n)

/-- The `click` listener of `#addDataButton`, registered when button, menu and
arrow exist; `classList.toggle` returns whether the token is now present. -/
def addDataClick (n : NavPage) : NavPage :=
  match n.addDataButton, n.addDataMenu, n.dropdownArrow with
  | true, some menu, some _ =>
    if classContains menu "hidden" then
      { n with addDataMenu := some (classRemove menu ["hidden"]),
               dropdownArrow := some "rotate(180deg)" }
    else
      { n with addDataMenu := some (classAdd menu ["hidden"]),
               dropdownArrow := some "rotate(0deg)" }
  | _, _, _ => n

/-- The `resize` listener of the window, after the width became `w`. -/
def resize (w : Nat) (n : NavPage) : NavPage :=
  let n1 := { n with innerWidth := w }
  if w ≥ 768 then
    { n1 with body := classRemove n.body ["overflow-hidden"] }
  else
    match n.sidebar with
    | some sb =>
      if !classContains sb "-translate-x-full" then
        { n1 with body := classAdd n.body ["overflow-hidden"] }
      else n1
    | none => n1

/-- The check at the end of the script, run once at load. -/
def initialCheck (n : NavPage) : NavPage :=
  if n.innerWidth ≥ 768 then { n with body := classRemove n.body ["overflow-hidden"] } else n

/-- What can happen to the sidebar.  A click on the open button runs its
listener, which stops the propagation.  A click on the close button or on the
backdrop runs that listener and then bubbles to the document.  Any other click
reaches the document listener only. -/
inductive NavEvent
  | openButtonClick
  | closeButtonClick (t : Target)
  | backdropClick (t : Target)
  | otherClick (t : Target)
  | addDataClick
  | resize (w : Nat)
  deriving DecidableEq, Repr

/-- The sidebar page after an event.  A listener exists only when its node does. -/
def navStep (n : NavPage) (e : NavEvent) : NavPage :=
  match e with
  | .openButtonClick => if n.openSidebarButton then openSidebar n else n
  | .closeButtonClick t =>
    if n.closeSidebarButton then documentClick t (closeSidebar n) else n
  | .backdropClick t =>
    if n.sidebarBackdrop.isSome then documentClick t (closeSidebar n) else n
  | .otherClick t => documentClick t n
  | .addDataClick => addDataClick n
  | .resize w => resize w n

/-- The sidebar page after a sequence of events. -/
def navRun (n : NavPage) (es : List NavEvent) : NavPage :=
  es.foldl navStep n

/-- The sidebar is open: it exists and lacks `-translate-x-full`. -/
def sidebarOpen (n : NavPage) : Bool :=
  match n.sidebar with
  | some sb => !classContains sb "-translate-x-full"
  | none => false

/-- Scrolling of the body is locked: the body has `overflow-hidden`. -/
def bodyLocked (n : NavPage) : Bool :=
  classContains n.body "overflow-hidden"

/-- The body is locked exactly when the sidebar is open on a narrow window. -/
def LockMatches (n : NavPage) : Prop :=
  bodyLocked n = true ↔ (sidebarOpen n = true ∧ n.innerWidth < 768)

/-- What the lock invariant needs of a sidebar page: sidebar and backdrop exist
and the lock matches. -/
structure NavOk (n : NavPage) : Prop where
  sidebar : n.sidebar.isSome = true
  backdrop : n.sidebarBackdrop.isSome = true
  lock : LockMatches n

/-- A narrow page with a closed sidebar. -/
def mobileNav : NavPage :=
  { innerWidth := 500,
    body := ["bg-gray-100"],
    sidebar := some ["fixed", "-translate-x-full"],
    sidebarBackdrop := some ["fixed", "hidden"],
    openSidebarButton := true,
    closeSidebarButton := true,
    addDataButton := true,
    addDataMenu := some ["hidden"],
    dropdownArrow := some "" }

/-- A click on the page content, outside every control. -/
def pageContent : Target :=
  { inSidebar := false, inOpenButton := false, inAddDataButton := false, inAddDataMenu := false }

/-! ## The lifetime of a toast -/

/-- The timers a callback schedules when it runs at time `now`. -/
def spawned (now : Nat) (cb : Callback) : List Timer :=
  match cb with
  | .toastAutoRemove j => [{ due := now + 300, cb := .toastDetach j }]
  | .delayedCloseModal => [{ due := now + 300, cb := .modalHide }]
  | _ => []

/-- The state of toast `i`, shown at time `T`, whose removal is due at `m`. -/
structure ToastInv (i T m : Nat) (p : Page) : Prop where
  known : i < p.toasts.length
  bound : m ≤ T + 5300
  auto : ∀ x ∈ p.timers, x.cb = .toastAutoRemove i → x.due = T + 5000
  detach : ∀ x ∈ p.timers, x.cb = .toastDetach i → m ≤ x.due
  before : p.now < m → toastAttached i p = true ∧
    (({ due := m, cb := .toastDetach i } : Timer) ∈ p.timers ∨
      (m = T + 5300 ∧ p.now < T + 5000 ∧
        ({ due := T + 5000, cb := .toastAutoRemove i } : Timer) ∈ p.timers))
  after : m ≤ p.now → toastAttached i p = false

/-- Page `q` differs from `p` in nothing that concerns toast `i`. -/
structure Frame (i : Nat) (p q : Page) : Prop where
  now : q.now = p.now
  attached : toastAttached i q = toastAttached i p
  length : p.toasts.length ≤ q.toasts.length
  old : ∀ x ∈ p.timers, x ∈ q.timers
  new : ∀ x ∈ q.timers, x ∈ p.timers ∨ (x.cb ≠ .toastAutoRemove i ∧ x.cb ≠ .toastDetach i)

/-- Every timer of a toast belongs to a toast that exists. -/
def TimersKnown (p : Page) : Prop :=
  ∀ x ∈ p.timers, ∀ j : Nat,
    (x.cb = .toastAnimateIn j ∨ x.cb = .toastAutoRemove j ∨ x.cb = .toastDetach j) →
      j < p.toasts.length

/-- The number of milliseconds that pass in a sequence of events. -/
def elapsed (es : List Event) : Nat :=
  es.count .tick

/-- Timer `x` belongs to toast `j`. -/
def ofToast (x : Timer) (j : Nat) : Prop :=
  x.cb = .toastAnimateIn j ∨ x.cb = .toastAutoRemove j ∨ x.cb = .toastDetach j

/-- Page `q` has the toasts of `p` and possibly more, and every timer it adds
belongs to no toast or to one of its toasts. -/
structure Grow (p q : Page) : Prop where
  length : p.toasts.length ≤ q.toasts.length
  new : ∀ x ∈ q.timers, x ∈ p.timers ∨ ∀ j, ofToast x j → j < q.toasts.length

/-- A JPEG of 123391 bytes, the largest size reported as 120 KB. -/
def edgeJpeg : File := { name := "edge.jpg", size := 123391, type := "image/jpeg" }

/-! # Theorems -/

/-! ## Shared lemmas -/

theorem classContains_classAdd_single (cl : ClassList) (t : String) :
    classContains (classAdd cl [t]) t = true := by
  by_cases h : t ∈ cl <;> simp [classContains, classAdd, h]

theorem mem_classRemove (cl : ClassList) (ts : List String) (c : String) :
    c ∈ classRemove cl ts ↔ c ∈ cl ∧ c ∉ ts := by
  simp [classRemove]

theorem mem_classAdd (ts : List String) (cl : ClassList) (c : String) :
    c ∈ classAdd cl ts ↔ c ∈ cl ∨ c ∈ ts := by
  induction ts generalizing cl with
  | nil => simp [classAdd]
  | cons t ts ih =>
    have h : classAdd cl (t :: ts) = classAdd (if cl.contains t then cl else cl ++ [t]) ts := rfl
    rw [h, ih]
    have hstep : c ∈ (if cl.contains t then cl else cl ++ [t]) ↔ c ∈ cl ∨ c = t := by
      by_cases ht : t ∈ cl
      · simp only [List.elem_eq_mem, decide_eq_true_eq, ht, if_true]
        constructor
        · exact Or.inl
        · rintro (h | h)
          · exact h
          · exact h ▸ ht
      · simp [ht]
    rw [hstep, List.mem_cons, or_assoc]

theorem lastToastText_showToast (m t : String) (p : Page) :
    lastToastText (showToast m t p) = some m := by
  simp [lastToastText, showToast, setTimeout]

theorem not_acceptable_cases (file : File) (h : ¬ acceptable file) :
    file.size > maxSize ∨ (¬ file.size > maxSize ∧ file.type ∉ allowedTypes) := by
  by_cases hs : file.size > maxSize
  · exact Or.inl hs
  · refine Or.inr ⟨hs, fun ht => h ⟨?_, ?_⟩⟩
    · unfold maxSize at hs; omega
    · simpa [allowedTypes] using ht

theorem selectPhoto_tooLarge (p : Page) (file : File) (rest : List File)
    (hs : file.size > maxSize) :
    selectPhoto (file :: rest) p =
      clearPhotoInput (showToast (tooLargeMessage file.size) "error"
        (chooseFiles (file :: rest) p)) := by
  simp [selectPhoto, photoChangeHandler, chooseFiles, hs]

theorem selectPhoto_badType (p : Page) (file : File) (rest : List File)
    (hs : ¬ file.size > maxSize) (ht : file.type ∉ allowedTypes) :
    selectPhoto (file :: rest) p =
      clearPhotoInput
        (showToast "Invalid file type. Only JPEG, PNG, and GIF images are allowed." "error"
          (chooseFiles (file :: rest) p)) := by
  simp [selectPhoto, photoChangeHandler, chooseFiles, hs, ht]

theorem selectPhoto_acceptable (p : Page) (file : File) (rest : List File) (form : FormEl)
    (img : ImgEl) (hform : p.photoForm = some form) (himg : p.profileImg = some img)
    (ha : acceptable file) :
    selectPhoto (file :: rest) p =
      fetch form.action .photo (.photo img.opacity)
        (setOpacity "0.5" (chooseFiles (file :: rest) p)) := by
  have hs : ¬ file.size > maxSize := by have := ha.1; unfold maxSize; omega
  have ht : file.type ∈ allowedTypes := by simpa [allowedTypes] using ha.2
  simp [selectPhoto, photoChangeHandler, chooseFiles, hs, ht, hform, himg]

theorem settle_fetch (url : String) (b : FormId) (k : Pending) (o : Outcome) (p : Page) :
    settle p.pending.length o (fetch url b k p) =
      runHandlers k o { fetch url b k p with pending := p.pending } := by
  have h : (p.pending ++ [k]).eraseIdx p.pending.length = p.pending := by
    rw [List.eraseIdx_append_of_length_le (Nat.le_refl _)]; simp
  simp [settle, fetch, h]

/-! ## The photo upload validates before it sends -/

/-- C1: with the photo form and the preview image present, selecting a file
issues a request exactly when the file has at most `120 * 1024` bytes and a
type of the allow-list; then it is one `POST` to the action of the form.  In
every other case no request is issued or left pending, the value of the input
is cleared and an error toast is appended. -/
theorem photo_request_iff_acceptable (p : Page) (file : File) (rest : List File)
    (form : FormEl) (img : ImgEl)
    (hform : p.photoForm = some form) (himg : p.profileImg = some img) :
    ((selectPhoto (file :: rest) p).fetchLog.length = p.fetchLog.length + 1 ↔ acceptable file) ∧
    (acceptable file →
      (selectPhoto (file :: rest) p).fetchLog = p.fetchLog ++ [photoRequest form]) ∧
    (¬ acceptable file →
      (selectPhoto (file :: rest) p).fetchLog = p.fetchLog ∧
      (selectPhoto (file :: rest) p).pending = p.pending ∧
      (selectPhoto (file :: rest) p).photoInput.value = "" ∧
      ∃ t, (selectPhoto (file :: rest) p).toasts = p.toasts ++ [t] ∧
        t.attached = true ∧ classContains t.classes "bg-red-500" = true) := by
  by_cases ha : acceptable file
  · simp only [ha, iff_true, true_imp_iff, not_true_eq_false, false_imp_iff, and_true]
    rw [selectPhoto_acceptable p file rest form img hform himg ha]
    simp [fetch, setOpacity, chooseFiles, photoRequest]
  · simp only [ha, iff_false, false_imp_iff, not_false_eq_true, true_imp_iff, true_and]
    rcases not_acceptable_cases file ha with hs | ⟨hs, ht⟩
    · rw [selectPhoto_tooLarge p file rest hs]
      simp [clearPhotoInput, showToast, setTimeout, chooseFiles, classContains]
    · rw [selectPhoto_badType p file rest hs ht]
      simp [clearPhotoInput, showToast, setTimeout, chooseFiles, classContains]

/-- C1 at a page right after load and a PNG of 1000 bytes: the request is sent. -/
theorem photo_request_iff_acceptable_witness :
    initialPage.photoForm = some { action := "/profile/photo/" } ∧
    initialPage.profileImg = some { src := "/media/avatar.png", opacity := "" } ∧
    (selectPhoto [{ name := "a.png", size := 1000, type := "image/png" }] initialPage).fetchLog =
      [photoRequest { action := "/profile/photo/" }] :=
  ⟨rfl, rfl,
    ((photo_request_iff_acceptable initialPage { name := "a.png", size := 1000, type := "image/png" }
      [] { action := "/profile/photo/" } { src := "/media/avatar.png", opacity := "" }
      rfl rfl).2.1 (by decide))⟩

/-! ## The in-flight state is reverted -/

/-- C2: one submission that no other submission overlaps, settled with any
outcome.  Contact form: the click on the enabled button disables it, and once
the outcome is handled the button is enabled as before, its label is
`Save Changes` and the spinner is hidden.  Photo upload: a file that fails
validation leaves the preview untouched; an accepted file dims the preview to
`0.5`, and once the outcome is handled its inline opacity is the one it had
before the upload. -/
theorem inflight_state_reverted (p : Page) (file : File) (rest : List File) (form : FormEl)
    (img : ImgEl) (o : Outcome)
    (hbtn : p.submitBtnDisabled = false)
    (hform : p.photoForm = some form) (himg : p.profileImg = some img) :
    ((contactSubmitClick p).submitBtnDisabled = true ∧
      (settle p.pending.length o (contactSubmitClick p)).submitBtnDisabled = p.submitBtnDisabled ∧
      (settle p.pending.length o (contactSubmitClick p)).btnText = "Save Changes" ∧
      classContains (settle p.pending.length o (contactSubmitClick p)).loadingSpinner "hidden"
        = true) ∧
    (¬ acceptable file → (selectPhoto (file :: rest) p).profileImg = p.profileImg) ∧
    (acceptable file →
      previewOpacity (selectPhoto (file :: rest) p) = some "0.5" ∧
      previewOpacity (settle p.pending.length o (selectPhoto (file :: rest) p))
        = previewOpacity p) := by
  refine ⟨?_, ?_, ?_⟩
  · have hc : contactSubmitClick p = contactSubmitHandler p := by
      simp [contactSubmitClick, hbtn]
    have hs : settle p.pending.length o (contactSubmitHandler p) = _ :=
      settle_fetch p.contactForm.action .contact .contact o (showLoading p)
    rw [hc, hs]
    refine ⟨rfl, ?_⟩
    cases o with
    | rejected =>
      simp [runHandlers, contactCatch, setStatus, resetButton, fetch, hbtn,
        classContains_classAdd_single]
    | resolved data =>
      cases hsucc : data.success <;>
      simp [runHandlers, contactThen, setStatus, resetButton, fetch, hbtn, hsucc,
        classContains_classAdd_single, highlightField, setTimeout, setField, getField]
  · intro hna
    rcases not_acceptable_cases file hna with hs | ⟨hs, ht⟩
    · rw [selectPhoto_tooLarge p file rest hs]; rfl
    · rw [selectPhoto_badType p file rest hs ht]; rfl
  · intro ha
    have hs : settle p.pending.length o (fetch form.action .photo (.photo img.opacity)
        (setOpacity "0.5" (chooseFiles (file :: rest) p))) = _ :=
      settle_fetch form.action .photo (.photo img.opacity) o
        (setOpacity "0.5" (chooseFiles (file :: rest) p))
    rw [selectPhoto_acceptable p file rest form img hform himg ha, hs]
    refine ⟨by simp [previewOpacity, fetch, setOpacity, chooseFiles, himg], ?_⟩
    cases o with
    | rejected =>
      simp [previewOpacity, runHandlers, photoCatch, showToast, setTimeout, setOpacity, fetch,
        chooseFiles, himg]
    | resolved data =>
      cases hsucc : data.success <;>
      simp [previewOpacity, runHandlers, photoThen, showToast, setTimeout, setOpacity, fetch,
        chooseFiles, himg, hsucc]

/-- C2 at a page right after load, with a rejected contact request and a
successful upload of a small PNG. -/
theorem inflight_state_reverted_witness :
    initialPage.submitBtnDisabled = false ∧
    (settle 0 .rejected (contactSubmitClick initialPage)).submitBtnDisabled = false ∧
    (settle 0 .rejected (contactSubmitClick initialPage)).btnText = "Save Changes" ∧
    previewOpacity (settle 0 (.resolved photoOk) (selectPhoto [smallPng] initialPage)) = some "" :=
  ⟨rfl,
    (inflight_state_reverted initialPage smallPng [] { action := "/profile/photo/" }
      { src := "/media/avatar.png", opacity := "" } .rejected rfl rfl rfl).1.2.1,
    (inflight_state_reverted initialPage smallPng [] { action := "/profile/photo/" }
      { src := "/media/avatar.png", opacity := "" } .rejected rfl rfl rfl).1.2.2.1,
    ((inflight_state_reverted initialPage smallPng [] { action := "/profile/photo/" }
      { src := "/media/avatar.png", opacity := "" } (.resolved photoOk) rfl rfl rfl).2.2
        (by decide)).2⟩

/-! ## Overlapping photo uploads -/

/-- C3, the code at the failing input: on a page right after load the user
picks a small PNG and, before that upload settles, a small GIF.  Both requests
are sent and both are in flight, and the file input was enabled all along. -/
theorem photo_uploads_overlap :
    (selectPhoto [smallPng] initialPage).photoInput.disabled = false ∧
    inFlight .photo (selectPhoto [smallPng] initialPage) = 1 ∧
    inFlight .photo (run initialPage [.selectPhoto [smallPng], .selectPhoto [smallGif]]) = 2 ∧
    (run initialPage [.selectPhoto [smallPng], .selectPhoto [smallGif]]).fetchLog =
      [photoRequest { action := "/profile/photo/" }, photoRequest { action := "/profile/photo/" }] ∧
    inFlight .contact (run initialPage [.contactSubmitClick, .contactSubmitClick]) = 1 := by
  decide

/-- C4, the code at the failing input: two uploads overlap on a page whose
preview has no inline opacity, and they settle in the order they started.
Once nothing is in flight the preview is left at opacity `0.5`, not at the
empty value it had before the first upload. -/
theorem overlapping_uploads_leave_preview_dimmed :
    previewOpacity initialPage = some "" ∧
    (run initialPage [.selectPhoto [smallPng], .selectPhoto [smallGif],
      .settle 0 (.resolved photoOk), .settle 0 (.resolved photoOk)]).pending = [] ∧
    previewOpacity (run initialPage [.selectPhoto [smallPng], .selectPhoto [smallGif],
      .settle 0 (.resolved photoOk), .settle 0 (.resolved photoOk)]) = some "0.5" := by
  decide

/-! ## Messages -/

/-- C6: a file above `120 * 1024` bytes gets an error toast whose text ends in
the number `k` of KB, the integer nearest to `size / 1024` with halves going up
(`k - 1/2 ≤ size / 1024 < k + 1/2`, written without fractions), and no request
is sent or left pending.  For a file of 133120 bytes the text reads `130KB`. -/
theorem too_large_toast_text (p : Page) (file : File) (rest : List File)
    (hsize : file.size > 120 * 1024) :
    (∃ k : Nat,
      (2 * (1024 * k) ≤ 2 * file.size + 1024 ∧ 2 * file.size < 2 * (1024 * k) + 1024) ∧
      ∃ t, (selectPhoto (file :: rest) p).toasts = p.toasts ++ [t] ∧
        classContains t.classes "bg-red-500" = true ∧
        t.text = "File size too large. Maximum allowed size is 120KB. Your file is " ++
          toString k ++ "KB.") ∧
    (selectPhoto (file :: rest) p).fetchLog = p.fetchLog ∧
    (selectPhoto (file :: rest) p).pending = p.pending ∧
    (file.size = 133120 →
      lastToastText (selectPhoto (file :: rest) p) =
        some "File size too large. Maximum allowed size is 120KB. Your file is 130KB.") := by
  rw [selectPhoto_tooLarge p file rest hsize]
  refine ⟨⟨roundKB file.size, ?_, ?_⟩, rfl, rfl, ?_⟩
  · unfold roundKB; omega
  · simp [clearPhotoInput, showToast, setTimeout, chooseFiles, classContains, tooLargeMessage]
  · intro h
    have ht : tooLargeMessage 133120 =
        "File size too large. Maximum allowed size is 120KB. Your file is 130KB." := by decide
    rw [h, ← ht]
    exact lastToastText_showToast _ _ _

/-- C6 at a page right after load: a JPEG of 130 KB is reported as `130KB`
and nothing is sent. -/
theorem too_large_toast_text_witness :
    largeJpeg.size > 120 * 1024 ∧
    lastToastText (selectPhoto [largeJpeg] initialPage) =
      some "File size too large. Maximum allowed size is 120KB. Your file is 130KB." ∧
    (selectPhoto [largeJpeg] initialPage).fetchLog = [] :=
  ⟨by decide,
    (too_large_toast_text initialPage largeJpeg [] (by decide)).2.2.2 rfl,
    (too_large_toast_text initialPage largeJpeg [] (by decide)).2.1⟩

/-- C7 as stated fails: a successful response whose phone is the empty string
carries a phone value, yet the phone field shows `Not provided`. -/
theorem contact_empty_phone_shows_default :
    contactEmptyPhone.success = true ∧ contactEmptyPhone.phone = some "" ∧
    (contactThen contactEmptyPhone initialPage).phoneText.textContent = "Not provided" ∧
    (contactThen contactEmptyPhone initialPage).phoneText.textContent ≠ "" := by
  decide

/-- C7, amended: after a response with a true success flag the status block has
neither `hidden` nor the red classes and has the green classes, and each of the
three fields shows the value of the response when that value is a non-empty
string, and `Not provided` when it is absent or the empty string. -/
theorem contact_success_display (p : Page) (data : Data) (hs : data.success = true) :
    (classContains (contactThen data p).formStatus.classes "hidden" = false ∧
      classContains (contactThen data p).formStatus.classes "bg-red-100" = false ∧
      classContains (contactThen data p).formStatus.classes "text-red-700" = false ∧
      classContains (contactThen data p).formStatus.classes "bg-green-100" = true ∧
      classContains (contactThen data p).formStatus.classes "text-green-700" = true) ∧
    (∀ (f : Field) (v : String), fieldValue f data = some v → v ≠ "" →
      (getField f (contactThen data p)).textContent = v) ∧
    (∀ f : Field, fieldValue f data = none ∨ fieldValue f data = some "" →
      (getField f (contactThen data p)).textContent = "Not provided") := by
  have hfield : ∀ f : Field, (getField f (contactThen data p)).textContent =
      orDefault (fieldValue f data) "Not provided" := by
    intro f
    cases f <;>
      simp [contactThen, hs, highlightField, setTimeout, setField, getField, setStatus,
        resetButton]
  refine ⟨?_, ?_, ?_⟩
  · simp [contactThen, hs, highlightField, setTimeout, setField, getField, setStatus,
      resetButton, classContains, mem_classAdd, mem_classRemove]
  · intro f v hv hne
    rw [hfield, hv]
    simp [orDefault, hne]
  · intro f hv
    rw [hfield]
    rcases hv with hv | hv <;> simp [orDefault, hv]

/-- C7, amended, at the response of the scenario: phone and city are shown,
the missing country reads `Not provided`. -/
theorem contact_success_display_witness :
    contactOk.success = true ∧
    (contactThen contactOk initialPage).phoneText.textContent = "555-1234" ∧
    (contactThen contactOk initialPage).cityText.textContent = "Springfield" ∧
    (contactThen contactOk initialPage).countryText.textContent = "Not provided" :=
  ⟨rfl,
    (contact_success_display initialPage contactOk rfl).2.1 .phone "555-1234" rfl (by decide),
    (contact_success_display initialPage contactOk rfl).2.1 .city "Springfield" rfl (by decide),
    (contact_success_display initialPage contactOk rfl).2.2 .country (Or.inl rfl)⟩

/-- C8 as stated fails: a rejected photo upload shows a toast with the shorter
text, not the text of the contact form. -/
theorem photo_network_error_text :
    lastToastText (run initialPage [.selectPhoto [smallPng], .settle 0 .rejected]) =
      some "Network error. Please try again." ∧
    lastToastText (run initialPage [.selectPhoto [smallPng], .settle 0 .rejected]) ≠
      some "Network error. Please check your connection and try again." := by
  decide

/-- C8, amended: a submission starts from an enabled control and its request is
rejected.  The status block of the contact form then shows
`Network error. Please check your connection and try again.`, the toast of the
photo upload shows `Network error. Please try again.`, and in both cases the
triggering control is enabled once the handler that shows the message has run.
In the contact form it is that handler which enables the submit button, on
every page. -/
theorem network_error_messages (p : Page) (file : File) (rest : List File) (form : FormEl)
    (img : ImgEl)
    (hbtn : p.submitBtnDisabled = false) (hinput : p.photoInput.disabled = false)
    (hform : p.photoForm = some form) (himg : p.profileImg = some img)
    (hfile : acceptable file) :
    (shownText (settle p.pending.length .rejected (contactSubmitClick p)).formStatus.paragraphHTML
        = some "Network error. Please check your connection and try again." ∧
      classContains (settle p.pending.length .rejected (contactSubmitClick p)).formStatus.classes
        "hidden" = false ∧
      (settle p.pending.length .rejected (contactSubmitClick p)).submitBtnDisabled = false) ∧
    (lastToastText (settle p.pending.length .rejected (selectPhoto (file :: rest) p)) =
        some "Network error. Please try again." ∧
      (∃ t, (settle p.pending.length .rejected (selectPhoto (file :: rest) p)).toasts =
          p.toasts ++ [t] ∧ classContains t.classes "bg-red-500" = true) ∧
      (settle p.pending.length .rejected (selectPhoto (file :: rest) p)).photoInput.disabled
        = false) ∧
    (∀ q : Page,
      shownText (runHandlers .contact .rejected q).formStatus.paragraphHTML =
        some "Network error. Please check your connection and try again." ∧
      (runHandlers .contact .rejected q).submitBtnDisabled = false) := by
  have hshown : ∀ q : Page,
      shownText (runHandlers .contact .rejected q).formStatus.paragraphHTML =
        some "Network error. Please check your connection and try again." := by
    intro q
    have h : (runHandlers .contact .rejected q).formStatus.paragraphHTML =
        "Network error. Please check your connection and try again." := rfl
    rw [h]
    decide
  refine ⟨?_, ?_, fun q => ⟨hshown q, rfl⟩⟩
  · have hc : contactSubmitClick p = contactSubmitHandler p := by
      simp [contactSubmitClick, hbtn]
    have hs : settle p.pending.length .rejected (contactSubmitHandler p) = _ :=
      settle_fetch p.contactForm.action .contact .contact .rejected (showLoading p)
    rw [hc, hs]
    refine ⟨hshown _, ?_, rfl⟩
    simp [runHandlers, contactCatch, setStatus, resetButton, classContains, mem_classAdd,
      mem_classRemove]
  · have hs : settle p.pending.length .rejected (fetch form.action .photo (.photo img.opacity)
        (setOpacity "0.5" (chooseFiles (file :: rest) p))) = _ :=
      settle_fetch form.action .photo (.photo img.opacity) .rejected
        (setOpacity "0.5" (chooseFiles (file :: rest) p))
    rw [selectPhoto_acceptable p file rest form img hform himg hfile, hs]
    refine ⟨lastToastText_showToast _ _ _, ?_, ?_⟩
    · simp [runHandlers, photoCatch, showToast, setTimeout, setOpacity, fetch, chooseFiles,
        classContains]
    · simp [runHandlers, photoCatch, showToast, setTimeout, setOpacity, fetch, chooseFiles,
        hinput]

/-- C8, amended, on a page right after load: both rejections show their text
and leave the submit button and the file input enabled. -/
theorem network_error_messages_witness :
    initialPage.submitBtnDisabled = false ∧ initialPage.photoInput.disabled = false ∧
    acceptable smallPng ∧
    shownText (settle 0 .rejected (contactSubmitClick initialPage)).formStatus.paragraphHTML
      = some "Network error. Please check your connection and try again." ∧
    (settle 0 .rejected (contactSubmitClick initialPage)).submitBtnDisabled = false ∧
    lastToastText (settle 0 .rejected (selectPhoto [smallPng] initialPage)) =
      some "Network error. Please try again." ∧
    (settle 0 .rejected (selectPhoto [smallPng] initialPage)).photoInput.disabled = false :=
  have h := network_error_messages initialPage smallPng [] { action := "/profile/photo/" }
    { src := "/media/avatar.png", opacity := "" } rfl rfl rfl rfl (by decide)
  ⟨rfl, rfl, by decide, h.1.1, h.1.2.2, h.2.1.1, h.2.1.2.2⟩

/-- C9 as stated fails: a failure response whose error is the empty string
carries an error, yet the toast and the status block show the fallbacks. -/
theorem empty_error_shows_fallback :
    failEmptyError.success = false ∧ failEmptyError.error = some "" ∧
    lastToastText (run initialPage [.selectPhoto [smallPng], .settle 0 (.resolved failEmptyError)])
      = some "Failed to update profile photo" ∧
    shownText (run initialPage
      [.contactSubmitClick, .settle 0 (.resolved failEmptyError)]).formStatus.paragraphHTML
      = some "An error occurred. Please try again." := by
  decide

/-- C9, amended: after a response with a false success flag, the photo toast
shows the error string of the response as it stands when that string is not
empty, and the status block of the contact form shows it as it stands when it is
not empty and made of plain characters (no `<`, `&`, carriage return or NUL).
When the error is absent or the empty string, the toast shows
`Failed to update profile photo` and the status block shows
`An error occurred. Please try again.`  What the status block shows for an
error string with markup is not stated. -/
theorem server_error_messages (p : Page) (originalOpacity : String) (data : Data)
    (hs : data.success = false) :
    (∀ e : String, data.error = some e → e ≠ "" →
      lastToastText (runHandlers (.photo originalOpacity) (.resolved data) p) = some e ∧
      (e.toList.all plainChar = true →
        shownText (runHandlers .contact (.resolved data) p).formStatus.paragraphHTML = some e)) ∧
    (data.error = none ∨ data.error = some "" →
      lastToastText (runHandlers (.photo originalOpacity) (.resolved data) p) =
        some "Failed to update profile photo" ∧
      shownText (runHandlers .contact (.resolved data) p).formStatus.paragraphHTML =
        some "An error occurred. Please try again.") := by
  have hphoto : lastToastText (runHandlers (.photo originalOpacity) (.resolved data) p) =
      some (orDefault data.error "Failed to update profile photo") := by
    simp only [runHandlers, photoThen, hs]
    exact lastToastText_showToast _ _ _
  have hcontact : (runHandlers .contact (.resolved data) p).formStatus.paragraphHTML =
      orDefault data.error "An error occurred. Please try again." := by
    simp [runHandlers, contactThen, hs, setStatus]
  have hfallback : shownText "An error occurred. Please try again." =
      some "An error occurred. Please try again." := by decide
  rw [hphoto, hcontact]
  refine ⟨?_, ?_⟩
  · intro e he hne
    refine ⟨by simp [orDefault, he, hne], fun hplain => ?_⟩
    have hor : orDefault data.error "An error occurred. Please try again." = e := by
      simp [orDefault, he, hne]
    rw [hor]
    unfold shownText
    rw [if_pos hplain]
  · rintro (he | he)
    · have hor : orDefault data.error "An error occurred. Please try again." =
          "An error occurred. Please try again." := by simp [orDefault, he]
      rw [hor]
      exact ⟨by simp [orDefault, he], hfallback⟩
    · have hor : orDefault data.error "An error occurred. Please try again." =
          "An error occurred. Please try again." := by simp [orDefault, he]
      rw [hor]
      exact ⟨by simp [orDefault, he], hfallback⟩

/-- C9, amended, at a response with a message of the server. -/
theorem server_error_messages_witness :
    failWithError.success = false ∧
    lastToastText (runHandlers (.photo "") (.resolved failWithError) initialPage) =
      some "Phone number is invalid" ∧
    shownText (runHandlers .contact (.resolved failWithError) initialPage).formStatus.paragraphHTML
      = some "Phone number is invalid" :=
  ⟨rfl,
    ((server_error_messages initialPage "" failWithError rfl).1 "Phone number is invalid" rfl
      (by decide)).1,
    ((server_error_messages initialPage "" failWithError rfl).1 "Phone number is invalid" rfl
      (by decide)).2 (by decide)⟩

/-! ## The lifetime of a toast -/

theorem toastAttached_eq (i : Nat) (p q : Page) (h : q.toasts[i]? = p.toasts[i]?) :
    toastAttached i q = toastAttached i p := by
  simp [toastAttached, h]

theorem toastAttached_modifyToast (i j : Nat) (f : ToastEl → ToastEl) (p : Page)
    (hf : ∀ t, (f t).attached = t.attached) :
    toastAttached i (modifyToast j f p) = toastAttached i p := by
  simp only [toastAttached, modifyToast, List.get?_eq_getElem?, List.getElem?_modify]
  cases p.toasts[i]? with
  | none => rfl
  | some t => by_cases h : j = i <;> simp [h, hf]

theorem toastAttached_detach (i j : Nat) (p : Page) :
    toastAttached i (modifyToast j (fun t => { t with attached := false }) p) =
      (toastAttached i p && decide (j ≠ i)) := by
  simp only [toastAttached, modifyToast, List.get?_eq_getElem?, List.getElem?_modify]
  cases p.toasts[i]? with
  | none => rfl
  | some t => by_cases h : j = i <;> simp [h]

theorem runCallback_now (cb : Callback) (p : Page) : (runCallback cb p).now = p.now := by
  cases cb with
  | clearHighlight f => cases f <;> rfl
  | _ => rfl

theorem runCallback_length (cb : Callback) (p : Page) :
    (runCallback cb p).toasts.length = p.toasts.length := by
  cases cb with
  | clearHighlight f => cases f <;> rfl
  | _ => simp [runCallback, modifyToast, removeToast, setTimeout, closeModal]

theorem runCallback_timers (cb : Callback) (p : Page) :
    (runCallback cb p).timers = p.timers ++ spawned p.now cb := by
  cases cb with
  | clearHighlight f => cases f <;> simp [runCallback, setField, spawned]
  | _ => simp [runCallback, modifyToast, removeToast, setTimeout, closeModal, spawned]

theorem toastAttached_removeToast (i j : Nat) (p : Page) :
    toastAttached i (removeToast j p) = toastAttached i p := by
  have h : toastAttached i (removeToast j p) = toastAttached i
      (modifyToast j
        (fun t => { t with classes := classAdd t.classes ["translate-y-2", "opacity-0"] }) p) :=
    rfl
  rw [h, toastAttached_modifyToast]
  intro t; rfl

theorem runCallback_attached (i : Nat) (cb : Callback) (p : Page) :
    toastAttached i (runCallback cb p) = (toastAttached i p && decide (cb ≠ .toastDetach i)) := by
  cases cb with
  | toastAnimateIn j =>
    simp only [runCallback]
    rw [toastAttached_modifyToast]
    · simp
    · intro t; rfl
  | toastAutoRemove j =>
    simp only [runCallback]
    rw [toastAttached_removeToast]; simp
  | toastDetach j =>
    simp only [runCallback]
    rw [toastAttached_detach]
    by_cases h : j = i <;> simp [h]
  | modalContentIn => simp [runCallback, toastAttached]
  | modalHide => simp [runCallback, toastAttached]
  | clearHighlight f => cases f <;> simp [runCallback, toastAttached, setField]
  | delayedCloseModal => simp [runCallback, toastAttached, closeModal, setTimeout]

/-- Running a list of due timers in order. -/
theorem fire_now (l : List Timer) (q : Page) :
    (l.foldl (fun q x => runCallback x.cb q) q).now = q.now := by
  induction l generalizing q with
  | nil => rfl
  | cons x l ih => rw [List.foldl_cons, ih, runCallback_now]

theorem fire_length (l : List Timer) (q : Page) :
    (l.foldl (fun q x => runCallback x.cb q) q).toasts.length = q.toasts.length := by
  induction l generalizing q with
  | nil => rfl
  | cons x l ih => rw [List.foldl_cons, ih, runCallback_length]

theorem fire_timers (l : List Timer) (q : Page) (x : Timer) :
    x ∈ (l.foldl (fun q x => runCallback x.cb q) q).timers ↔
      x ∈ q.timers ∨ ∃ y ∈ l, x ∈ spawned q.now y.cb := by
  induction l generalizing q with
  | nil => simp
  | cons y l ih =>
    rw [List.foldl_cons, ih, runCallback_timers, runCallback_now, List.mem_append]
    simp only [List.mem_cons, exists_eq_or_imp, or_assoc]

theorem fire_attached (i : Nat) (l : List Timer) (q : Page) :
    toastAttached i (l.foldl (fun q x => runCallback x.cb q) q) = true ↔
      toastAttached i q = true ∧ ∀ y ∈ l, y.cb ≠ .toastDetach i := by
  induction l generalizing q with
  | nil => simp
  | cons y l ih =>
    rw [List.foldl_cons, ih, runCallback_attached]
    simp only [Bool.and_eq_true, decide_eq_true_eq, List.mem_cons, forall_eq_or_imp, and_assoc]

theorem tick_now (p : Page) : (tick p).now = p.now + 1 := by
  unfold tick; rw [fire_now]

theorem tick_length (p : Page) : (tick p).toasts.length = p.toasts.length := by
  unfold tick; rw [fire_length]

theorem tick_timers (p : Page) (x : Timer) :
    x ∈ (tick p).timers ↔
      (x ∈ p.timers ∧ p.now + 1 < x.due) ∨
        ∃ y ∈ p.timers, y.due ≤ p.now + 1 ∧ x ∈ spawned (p.now + 1) y.cb := by
  unfold tick
  rw [fire_timers]
  simp only [List.mem_filter, decide_eq_true_eq, and_assoc]

theorem tick_attached (i : Nat) (p : Page) :
    toastAttached i (tick p) = true ↔
      toastAttached i p = true ∧
        ∀ y ∈ p.timers, y.due ≤ p.now + 1 → y.cb ≠ .toastDetach i := by
  unfold tick
  rw [fire_attached]
  simp only [List.mem_filter, decide_eq_true_eq, and_imp]
  rfl

theorem spawned_cb (n : Nat) (cb : Callback) (x : Timer) (hx : x ∈ spawned n cb) (i : Nat) :
    x.cb ≠ .toastAutoRemove i ∧
      (x.cb = .toastDetach i → cb = .toastAutoRemove i ∧ x.due = n + 300) := by
  cases cb <;> simp [spawned] at hx <;> subst hx <;> simp

theorem toastInv_tick (i T m : Nat) (p : Page) (h : ToastInv i T m p) :
    ToastInv i T m (tick p) := by
  obtain ⟨hk, hb, ha, hd, hbef, haft⟩ := h
  have hnodue : p.now + 1 < m → ∀ y ∈ p.timers, y.due ≤ p.now + 1 → y.cb ≠ .toastDetach i := by
    intro hlt y hy hdue hcb
    have := hd y hy hcb
    omega
  refine ⟨?_, hb, ?_, ?_, ?_, ?_⟩
  · rw [tick_length]; exact hk
  · intro x hx hcb
    rcases (tick_timers p x).mp hx with ⟨hx, _⟩ | ⟨y, _, _, hsp⟩
    · exact ha x hx hcb
    · exact absurd hcb (spawned_cb _ _ _ hsp i).1
  · intro x hx hcb
    rcases (tick_timers p x).mp hx with ⟨hx, _⟩ | ⟨y, hy, hdue, hsp⟩
    · exact hd x hx hcb
    · obtain ⟨hycb, hxdue⟩ := (spawned_cb _ _ _ hsp i).2 hcb
      have := ha y hy hycb
      omega
  · rw [tick_now]
    intro hlt
    obtain ⟨hatt, hdisj⟩ := hbef (by omega)
    refine ⟨(tick_attached i p).mpr ⟨hatt, hnodue hlt⟩, ?_⟩
    rcases hdisj with hmem | ⟨hm, hnow, hmem⟩
    · exact Or.inl ((tick_timers p _).mpr (Or.inl ⟨hmem, hlt⟩))
    · by_cases hfire : T + 5000 ≤ p.now + 1
      · refine Or.inl ((tick_timers p _).mpr (Or.inr ⟨_, hmem, hfire, ?_⟩))
        have : m = p.now + 1 + 300 := by omega
        simp [spawned, this]
      · exact Or.inr ⟨hm, by omega,
          (tick_timers p _).mpr (Or.inl ⟨hmem, by simpa using hfire⟩)⟩
  · rw [tick_now]
    intro hle
    cases hatt : toastAttached i (tick p)
    · rfl
    · exfalso
      obtain ⟨hatt0, hno⟩ := (tick_attached i p).mp hatt
      by_cases hlt : p.now < m
      · rcases (hbef hlt).2 with hmem | ⟨hm, hnow, _⟩
        · exact hno _ hmem (by simpa using hle) rfl
        · omega
      · rw [haft (by omega)] at hatt0
        exact Bool.noConfusion hatt0

theorem toastInv_frame (i T m : Nat) (p q : Page) (h : ToastInv i T m p) (f : Frame i p q) :
    ToastInv i T m q := by
  obtain ⟨hk, hb, ha, hd, hbef, haft⟩ := h
  obtain ⟨fn, fa, fl, fo, fnew⟩ := f
  refine ⟨by omega, hb, ?_, ?_, ?_, ?_⟩
  · intro x hx hcb
    rcases fnew x hx with hx | ⟨h1, _⟩
    · exact ha x hx hcb
    · exact absurd hcb h1
  · intro x hx hcb
    rcases fnew x hx with hx | ⟨_, h2⟩
    · exact hd x hx hcb
    · exact absurd hcb h2
  · rw [fn, fa]
    intro hlt
    obtain ⟨hatt, hdisj⟩ := hbef hlt
    refine ⟨hatt, ?_⟩
    rcases hdisj with hmem | ⟨hm, hnow, hmem⟩
    · exact Or.inl (fo _ hmem)
    · exact Or.inr ⟨hm, hnow, fo _ hmem⟩
  · rw [fn, fa]; exact haft

theorem removeToast_now (j : Nat) (p : Page) : (removeToast j p).now = p.now := rfl

theorem removeToast_length (j : Nat) (p : Page) :
    (removeToast j p).toasts.length = p.toasts.length := by
  simp [removeToast, setTimeout, modifyToast]

theorem removeToast_timers (j : Nat) (p : Page) :
    (removeToast j p).timers = p.timers ++ [{ due := p.now + 300, cb := .toastDetach j }] := rfl

theorem toastInv_close (i T m : Nat) (p : Page) (h : ToastInv i T m p) :
    ToastInv i T (if toastAttached i p then min m (p.now + 300) else m)
      (toastCloseClick i p) := by
  cases hatt : toastAttached i p
  · have hp : toastCloseClick i p = p := by simp [toastCloseClick, hatt]
    rw [hp]; simpa using h
  · have hp : toastCloseClick i p = removeToast i p := by simp [toastCloseClick, hatt]
    rw [hp]
    obtain ⟨hk, hb, ha, hd, hbef, haft⟩ := h
    have hlt : p.now < m := by
      by_contra hge
      rw [haft (by omega)] at hatt
      exact Bool.noConfusion hatt
    simp only [if_true]
    refine ⟨?_, ?_, ?_, ?_, ?_, ?_⟩
    · rw [removeToast_length]; exact hk
    · have := Nat.min_le_left m (p.now + 300); omega
    · intro x hx hcb
      rw [removeToast_timers, List.mem_append, List.mem_singleton] at hx
      rcases hx with hx | hx
      · exact ha x hx hcb
      · subst hx; simp at hcb
    · intro x hx hcb
      rw [removeToast_timers, List.mem_append, List.mem_singleton] at hx
      rcases hx with hx | hx
      · have := hd x hx hcb
        have := Nat.min_le_left m (p.now + 300); omega
      · subst hx
        exact Nat.min_le_right m (p.now + 300)
    · intro _
      rw [toastAttached_removeToast, removeToast_timers]
      refine ⟨hatt, ?_⟩
      by_cases hmin : p.now + 300 < m
      · have hm : min m (p.now + 300) = p.now + 300 := by omega
        rw [hm]
        exact Or.inl (by simp)
      · have hm : min m (p.now + 300) = m := by omega
        rw [hm]
        rcases (hbef hlt).2 with hmem | ⟨h1, h2, hmem⟩
        · exact Or.inl (List.mem_append_left _ hmem)
        · exact Or.inr ⟨h1, h2, List.mem_append_left _ hmem⟩
    · intro hle
      rw [removeToast_now] at hle
      have := Nat.min_le_left m (p.now + 300)
      have : min m (p.now + 300) = m ∨ min m (p.now + 300) = p.now + 300 := by omega
      omega

theorem frame_of_eq (i : Nat) (p q : Page) (hn : q.now = p.now) (ht : q.toasts = p.toasts)
    (hm : q.timers = p.timers) : Frame i p q :=
  ⟨hn, by simp [toastAttached, ht], by rw [ht], fun x hx => hm ▸ hx, fun x hx => Or.inl (hm ▸ hx)⟩

theorem frame_trans (i : Nat) (p q r : Page) (f : Frame i p q) (g : Frame i q r) :
    Frame i p r := by
  refine ⟨g.now.trans f.now, g.attached.trans f.attached, Nat.le_trans f.length g.length,
    fun x hx => g.old x (f.old x hx), ?_⟩
  intro x hx
  rcases g.new x hx with hx | hx
  · exact f.new x hx
  · exact Or.inr hx

theorem frame_setTimeout (i : Nat) (cb : Callback) (d : Nat) (p : Page)
    (h1 : cb ≠ .toastAutoRemove i) (h2 : cb ≠ .toastDetach i) :
    Frame i p (setTimeout cb d p) := by
  refine ⟨rfl, rfl, Nat.le_refl _, fun x hx => List.mem_append_left _ hx, ?_⟩
  intro x hx
  simp only [setTimeout, List.mem_append, List.mem_singleton] at hx
  rcases hx with hx | hx
  · exact Or.inl hx
  · subst hx; exact Or.inr ⟨h1, h2⟩

theorem frame_showToast (i : Nat) (m t : String) (p : Page) (hk : i < p.toasts.length) :
    Frame i p (showToast m t p) := by
  refine ⟨rfl, ?_, ?_, ?_, ?_⟩
  · apply toastAttached_eq
    simp only [showToast, setTimeout]
    exact List.getElem?_append_left hk
  · simp [showToast, setTimeout]
  · intro x hx
    simp only [showToast, setTimeout, List.append_assoc, List.mem_append]
    exact Or.inl hx
  · intro x hx
    simp only [showToast, setTimeout, List.append_assoc, List.mem_append, List.mem_singleton,
      List.mem_cons, List.singleton_append, List.mem_nil_iff, or_false] at hx
    rcases hx with hx | hx | hx
    · exact Or.inl hx
    · subst hx; exact Or.inr ⟨by simp, by simp⟩
    · subst hx
      refine Or.inr ⟨?_, by simp⟩
      simp only [ne_eq, Callback.toastAutoRemove.injEq]
      omega

theorem frame_removeToast (i j : Nat) (p : Page) (h : j ≠ i) : Frame i p (removeToast j p) := by
  refine ⟨rfl, toastAttached_removeToast i j p, Nat.le_of_eq (removeToast_length j p).symm,
    fun x hx => List.mem_append_left _ hx, ?_⟩
  intro x hx
  rw [removeToast_timers, List.mem_append, List.mem_singleton] at hx
  rcases hx with hx | hx
  · exact Or.inl hx
  · subst hx; exact Or.inr ⟨by simp, by simp [h]⟩

theorem frame_refl (i : Nat) (p : Page) : Frame i p p := frame_of_eq i p p rfl rfl rfl

theorem frame_setTimeout_of (i : Nat) (cb : Callback) (d : Nat) (p q : Page)
    (hn : q.now = p.now) (ht : q.toasts = p.toasts) (hm : q.timers = p.timers)
    (h1 : cb ≠ .toastAutoRemove i) (h2 : cb ≠ .toastDetach i) :
    Frame i p (setTimeout cb d q) :=
  frame_trans i p q _ (frame_of_eq i p q hn ht hm) (frame_setTimeout i cb d q h1 h2)

theorem frame_showToast_of (i : Nat) (m t : String) (p q : Page)
    (hn : q.now = p.now) (ht : q.toasts = p.toasts) (hm : q.timers = p.timers)
    (hk : i < p.toasts.length) :
    Frame i p (showToast m t q) :=
  frame_trans i p q _ (frame_of_eq i p q hn ht hm) (frame_showToast i m t q (ht ▸ hk))

theorem frame_closeModal (i : Nat) (p : Page) : Frame i p (closeModal p) :=
  frame_setTimeout_of i .modalHide 300 p _ rfl rfl rfl (by simp) (by simp)

theorem frame_openModal (i : Nat) (p : Page) : Frame i p (openModal p) :=
  frame_setTimeout_of i .modalContentIn 50 p _ rfl rfl rfl (by simp) (by simp)

theorem frame_selectPhoto (i : Nat) (files : List File) (p : Page) (hk : i < p.toasts.length) :
    Frame i p (selectPhoto files p) := by
  unfold selectPhoto photoChangeHandler
  split
  · exact frame_of_eq i _ _ rfl rfl rfl
  · split
    · exact frame_trans i _ _ _ (frame_showToast_of i _ _ p (chooseFiles files p) rfl rfl rfl hk)
        (frame_of_eq i _ _ rfl rfl rfl)
    · split
      · exact frame_trans i _ _ _
          (frame_showToast_of i _ _ p (chooseFiles files p) rfl rfl rfl hk)
          (frame_of_eq i _ _ rfl rfl rfl)
      · split
        · exact frame_of_eq i _ _ rfl rfl rfl
        · split
          · exact frame_of_eq i _ _ rfl rfl rfl
          · exact frame_of_eq i _ _ rfl rfl rfl

theorem frame_contactSubmitClick (i : Nat) (p : Page) : Frame i p (contactSubmitClick p) := by
  unfold contactSubmitClick
  split
  · exact frame_refl i p
  · exact frame_of_eq i _ _ rfl rfl rfl

theorem frame_highlightField (i : Nat) (data : Data) (p : Page) (f : Field) :
    Frame i p (highlightField data p f) := by
  cases f <;>
    exact frame_setTimeout_of i _ 2000 p _ rfl rfl rfl (by simp) (by simp)

theorem frame_runHandlers (i : Nat) (k : Pending) (o : Outcome) (p q : Page)
    (hn : q.now = p.now) (ht : q.toasts = p.toasts) (hm : q.timers = p.timers)
    (hk : i < p.toasts.length) : Frame i p (runHandlers k o q) := by
  cases k with
  | photo orig =>
    cases o with
    | rejected => exact frame_showToast_of i _ _ p _ hn ht hm hk
    | resolved data =>
      simp only [runHandlers, photoThen]
      split
      · exact frame_showToast_of i _ _ p _ hn ht hm hk
      · exact frame_showToast_of i _ _ p _ hn ht hm hk
  | contact =>
    cases o with
    | rejected => exact frame_of_eq i _ _ hn ht hm
    | resolved data =>
      simp only [runHandlers, contactThen]
      split
      · refine frame_trans i p _ _ ?_ (frame_setTimeout i .delayedCloseModal 1500 _ (by simp)
          (by simp))
        simp only [List.foldl_cons, List.foldl_nil]
        refine frame_trans i p _ _ ?_ (frame_highlightField i data _ .country)
        refine frame_trans i p _ _ ?_ (frame_highlightField i data _ .city)
        refine frame_trans i p _ _ ?_ (frame_highlightField i data _ .phone)
        exact frame_of_eq i _ _ hn ht hm
      · exact frame_of_eq i _ _ hn ht hm

theorem frame_settle (i : Nat) (k : Nat) (o : Outcome) (p : Page) (hk : i < p.toasts.length) :
    Frame i p (settle k o p) := by
  unfold settle
  split
  · exact frame_refl i p
  · exact frame_runHandlers i _ o p _ rfl rfl rfl hk

theorem frame_toastCloseClick (i j : Nat) (p : Page) (h : j ≠ i) :
    Frame i p (toastCloseClick j p) := by
  unfold toastCloseClick
  split
  · exact frame_removeToast i j p h
  · exact frame_refl i p

theorem frame_modalClick (i : Nat) (b : Bool) (p : Page) : Frame i p (modalClick b p) := by
  unfold modalClick
  split
  · exact frame_closeModal i p
  · exact frame_refl i p

theorem frame_keydown (i : Nat) (key : String) (p : Page) : Frame i p (keydown key p) := by
  unfold keydown
  split
  · split
    · exact frame_closeModal i p
    · exact frame_refl i p
  · exact frame_refl i p

theorem frame_step (i : Nat) (e : Event) (p : Page) (hk : i < p.toasts.length)
    (htick : e ≠ .tick) (hclose : e ≠ .toastCloseClick i) : Frame i p (step p e) := by
  cases e with
  | tick => exact absurd rfl htick
  | toastCloseClick j =>
    exact frame_toastCloseClick i j p (fun h => hclose (by rw [h]))
  | selectPhoto files => exact frame_selectPhoto i files p hk
  | contactSubmitClick => exact frame_contactSubmitClick i p
  | settle k o => exact frame_settle i k o p hk
  | openModalClick => exact frame_openModal i p
  | closeModalClick => exact frame_closeModal i p
  | modalClick b => exact frame_modalClick i b p
  | keydown key => exact frame_keydown i key p

theorem toastInv_attached_iff (i T m : Nat) (p : Page) (h : ToastInv i T m p) :
    toastAttached i p = true ↔ p.now < m := by
  constructor
  · intro hatt
    by_contra hge
    rw [h.after (by omega)] at hatt
    exact Bool.noConfusion hatt
  · intro hlt
    exact (h.before hlt).1

theorem toastInv_step (i T m : Nat) (p : Page) (e : Event) (h : ToastInv i T m p) :
    ∃ m', m' ≤ m ∧ (e ≠ .toastCloseClick i → m' = m) ∧ (m ≤ p.now + 300 → m' = m) ∧
      p.now ≤ (step p e).now ∧ ToastInv i T m' (step p e) := by
  by_cases htick : e = .tick
  · subst htick
    refine ⟨m, Nat.le_refl _, fun _ => rfl, fun _ => rfl, ?_, toastInv_tick i T m p h⟩
    show p.now ≤ (tick p).now
    rw [tick_now]; omega
  · by_cases hclose : e = .toastCloseClick i
    · subst hclose
      refine ⟨_, ?_, fun hne => absurd rfl hne, ?_, ?_, toastInv_close i T m p h⟩
      · split
        · exact Nat.min_le_left _ _
        · exact Nat.le_refl _
      · intro hm
        split
        · exact Nat.min_eq_left hm
        · rfl
      · show p.now ≤ (toastCloseClick i p).now
        unfold toastCloseClick
        split
        · exact Nat.le_refl _
        · exact Nat.le_refl _
    · have f := frame_step i e p h.known htick hclose
      exact ⟨m, Nat.le_refl _, fun _ => rfl, fun _ => rfl, Nat.le_of_eq f.now.symm,
        toastInv_frame i T m p _ h f⟩

theorem toastInv_run (i T : Nat) (es : List Event) :
    ∀ (m : Nat) (p : Page), ToastInv i T m p →
      ∃ m', m' ≤ m ∧ ((∀ e ∈ es, e ≠ .toastCloseClick i) → m' = m) ∧
        (m ≤ p.now + 300 → m' = m) ∧ p.now ≤ (run p es).now ∧ ToastInv i T m' (run p es) := by
  induction es with
  | nil => intro m p h; exact ⟨m, Nat.le_refl _, fun _ => rfl, fun _ => rfl, Nat.le_refl _, h⟩
  | cons e es ih =>
    intro m p h
    obtain ⟨m1, hle1, hne1, hlate1, hnow1, h1⟩ := toastInv_step i T m p e h
    obtain ⟨m2, hle2, hne2, hlate2, hnow2, h2⟩ := ih m1 (step p e) h1
    refine ⟨m2, Nat.le_trans hle2 hle1, ?_, ?_, Nat.le_trans hnow1 hnow2, h2⟩
    · intro hall
      rw [hne2 (fun e' he' => hall e' (List.mem_cons_of_mem _ he')),
        hne1 (hall e (List.mem_cons_self _ _))]
    · intro hm
      have hm1 : m1 = m := hlate1 hm
      rw [hlate2 (by omega), hm1]

theorem toastInv_showToast (message type : String) (p : Page)
    (hfresh : ∀ x ∈ p.timers,
      x.cb ≠ .toastAutoRemove p.toasts.length ∧ x.cb ≠ .toastDetach p.toasts.length) :
    ToastInv p.toasts.length p.now (p.now + 5300) (showToast message type p) := by
  have htimers : (showToast message type p).timers = p.timers ++
      [{ due := p.now + 10, cb := .toastAnimateIn p.toasts.length },
       { due := p.now + 5000, cb := .toastAutoRemove p.toasts.length }] := by
    simp [showToast, setTimeout]
  refine ⟨by simp [showToast, setTimeout], Nat.le_refl _, ?_, ?_, ?_, ?_⟩
  · intro x hx hcb
    rw [htimers] at hx
    simp only [List.mem_append, List.mem_cons, List.mem_singleton, List.mem_nil_iff,
      or_false] at hx
    rcases hx with hx | hx | hx
    · exact absurd hcb (hfresh x hx).1
    · subst hx; simp at hcb
    · subst hx; rfl
  · intro x hx hcb
    rw [htimers] at hx
    simp only [List.mem_append, List.mem_cons, List.mem_singleton, List.mem_nil_iff,
      or_false] at hx
    rcases hx with hx | hx | hx
    · exact absurd hcb (hfresh x hx).2
    · subst hx; simp at hcb
    · subst hx; simp at hcb
  · intro _
    refine ⟨by simp [toastAttached, showToast, setTimeout], Or.inr ⟨rfl, ?_, ?_⟩⟩
    · show p.now < p.now + 5000
      omega
    · rw [htimers]; simp
  · intro hle
    have : (showToast message type p).now = p.now := rfl
    omega

theorem step_now_of_ne_tick (p : Page) (e : Event) (h : e ≠ .tick) : (step p e).now = p.now := by
  cases e with
  | tick => exact absurd rfl h
  | toastCloseClick j => simp only [step, toastCloseClick]; split <;> rfl
  | selectPhoto files =>
    simp only [step, selectPhoto, photoChangeHandler]
    repeat' split
    all_goals rfl
  | contactSubmitClick => simp only [step, contactSubmitClick]; split <;> rfl
  | settle k o =>
    simp only [step, settle]
    split
    · rfl
    · rename_i r _
      cases r <;> cases o <;> simp only [runHandlers, photoThen, contactThen] <;>
        first
        | rfl
        | (split <;> rfl)
  | openModalClick => rfl
  | closeModalClick => rfl
  | modalClick b => simp only [step, modalClick]; split <;> rfl
  | keydown key => simp only [step, keydown]; repeat' split
                   all_goals rfl

theorem run_now (es : List Event) (p : Page) : (run p es).now = p.now + elapsed es := by
  induction es generalizing p with
  | nil => rfl
  | cons e es ih =>
    show (run (step p e) es).now = _
    rw [ih]
    by_cases h : e = .tick
    · subst h
      show (tick p).now + elapsed es = p.now + elapsed (Event.tick :: es)
      rw [tick_now]
      simp only [elapsed, List.count_cons_self]
      omega
    · rw [step_now_of_ne_tick p e h]
      simp only [elapsed]
      rw [List.count_cons_of_ne (fun h' => h h'.symm)]

/-- C5: a toast is shown by `showToast` at time `T`, the clock of the page,
on a page whose toast timers belong to existing toasts; any events follow, and
each `tick` is one millisecond.
(1) If its close button is never clicked, the toast is in the document exactly
while the time is below `T + 5000 + 300`.
(2) If the first click on its close button comes at a time `D < T + 5000`,
the toast is in the document exactly while the time is below `D + 300`,
whatever follows the click.
(3) In every case it is out of the document from `T + 5300` on.
(4) Once it is out of the document, no later event, timer callbacks included,
puts it back.
(5) The time is `T` plus the number of ticks. -/
theorem toast_lifetime (p : Page) (message type : String) (hknown : TimersKnown p) :
    (∀ es : List Event, (∀ e ∈ es, e ≠ .toastCloseClick p.toasts.length) →
      (toastAttached p.toasts.length (run (showToast message type p) es) = true ↔
        p.now + elapsed es < p.now + 5000 + 300)) ∧
    (∀ es1 es2 : List Event, (∀ e ∈ es1, e ≠ .toastCloseClick p.toasts.length) →
      p.now + elapsed es1 < p.now + 5000 →
      (toastAttached p.toasts.length
          (run (showToast message type p) (es1 ++ .toastCloseClick p.toasts.length :: es2))
            = true ↔
        p.now + elapsed (es1 ++ .toastCloseClick p.toasts.length :: es2) <
          p.now + elapsed es1 + 300)) ∧
    (∀ es : List Event, 5000 + 300 ≤ elapsed es →
      toastAttached p.toasts.length (run (showToast message type p) es) = false) ∧
    (∀ es es' : List Event,
      toastAttached p.toasts.length (run (showToast message type p) es) = false →
      toastAttached p.toasts.length (run (showToast message type p) (es ++ es')) = false) ∧
    (∀ es : List Event, (run (showToast message type p) es).now = p.now + elapsed es) := by
  have h0 : ToastInv p.toasts.length p.now (p.now + 5300) (showToast message type p) :=
    toastInv_showToast message type p
      (fun x hx => ⟨fun h => Nat.lt_irrefl _ (hknown x hx _ (Or.inr (Or.inl h))),
        fun h => Nat.lt_irrefl _ (hknown x hx _ (Or.inr (Or.inr h)))⟩)
  have hnow : ∀ es : List Event, (run (showToast message type p) es).now = p.now + elapsed es :=
    fun es => run_now es _
  refine ⟨?_, ?_, ?_, ?_, hnow⟩
  · intro es hno
    obtain ⟨m', _, hm, _, _, h⟩ := toastInv_run _ _ es _ _ h0
    rw [hm hno] at h
    rw [toastInv_attached_iff _ _ _ _ h, hnow]
  · intro es1 es2 hno hD
    obtain ⟨m1, _, hm1, _, _, h1⟩ := toastInv_run _ _ es1 _ _ h0
    rw [hm1 hno] at h1
    have hD1 : (run (showToast message type p) es1).now < p.now + 5300 := by
      rw [hnow]; omega
    have hatt : toastAttached p.toasts.length (run (showToast message type p) es1) = true :=
      (toastInv_attached_iff _ _ _ _ h1).mpr hD1
    have h2 := toastInv_close _ _ _ _ h1
    rw [hatt, if_pos rfl, hnow] at h2
    have hmin : min (p.now + 5300) (p.now + elapsed es1 + 300) = p.now + elapsed es1 + 300 := by
      omega
    rw [hmin] at h2
    have hnow2 : (toastCloseClick p.toasts.length (run (showToast message type p) es1)).now =
        p.now + elapsed es1 := by
      rw [← hnow es1]
      exact step_now_of_ne_tick _ (.toastCloseClick p.toasts.length) (by simp)
    obtain ⟨m3, _, _, hm3, _, h3⟩ := toastInv_run _ _ es2 _ _ h2
    rw [hm3 (by rw [hnow2])] at h3
    have hrun : run (showToast message type p) (es1 ++ .toastCloseClick p.toasts.length :: es2) =
        run (toastCloseClick p.toasts.length (run (showToast message type p) es1)) es2 := by
      simp [run, step]
    rw [← hnow (es1 ++ .toastCloseClick p.toasts.length :: es2), hrun]
    exact toastInv_attached_iff _ _ _ _ h3
  · intro es hlate
    obtain ⟨m', hle, _, _, _, h⟩ := toastInv_run _ _ es _ _ h0
    apply h.after
    rw [hnow]; omega
  · intro es es' hdet
    obtain ⟨m1, _, _, _, _, h1⟩ := toastInv_run _ _ es _ _ h0
    have hm1 : m1 ≤ (run (showToast message type p) es).now := by
      by_contra hlt
      rw [(toastInv_attached_iff _ _ _ _ h1).mpr (by omega)] at hdet
      exact Bool.noConfusion hdet
    obtain ⟨m2, hle2, _, _, hnow2, h2⟩ := toastInv_run _ _ es' _ _ h1
    have hrun : run (showToast message type p) (es ++ es') =
        run (run (showToast message type p) es) es' := by
      simp [run]
    rw [hrun]
    apply h2.after
    omega

theorem elapsed_replicate (n : Nat) : elapsed (List.replicate n Event.tick) = n := by
  simp only [elapsed, List.count_replicate_self]

theorem elapsed_append (es es' : List Event) : elapsed (es ++ es') = elapsed es + elapsed es' := by
  simp only [elapsed, List.count_append]

theorem elapsed_cons_close (i : Nat) (es : List Event) :
    elapsed (Event.toastCloseClick i :: es) = elapsed es := by
  simp only [elapsed]
  exact List.count_cons_of_ne (by simp) es

/-- C5 on a page right after load: the toast is in the document after 5299 ms
and gone after 5300 ms; closed at 1000 ms, it is gone at 1300 ms. -/
theorem toast_lifetime_witness :
    TimersKnown initialPage ∧
    toastAttached 0 (run (showToast "Saved" "success" initialPage)
      (List.replicate 5299 .tick)) = true ∧
    toastAttached 0 (run (showToast "Saved" "success" initialPage)
      (List.replicate 5300 .tick)) = false ∧
    toastAttached 0 (run (showToast "Saved" "success" initialPage)
      (List.replicate 1000 .tick ++ .toastCloseClick 0 :: List.replicate 300 .tick)) = false :=
  have hk : TimersKnown initialPage := fun x hx => absurd hx (List.not_mem_nil x)
  have hno : ∀ n : Nat, ∀ e ∈ List.replicate n Event.tick, e ≠ .toastCloseClick 0 := by
    intro n e he
    rw [List.eq_of_mem_replicate he]
    simp
  ⟨hk,
    ((toast_lifetime initialPage "Saved" "success" hk).1 (List.replicate 5299 .tick)
      (hno 5299)).mpr (by rw [elapsed_replicate]; omega),
    (toast_lifetime initialPage "Saved" "success" hk).2.2.1 (List.replicate 5300 .tick)
      (by rw [elapsed_replicate]),
    by
      have h := (toast_lifetime initialPage "Saved" "success" hk).2.1
        (List.replicate 1000 .tick) (List.replicate 300 .tick) (hno 1000)
        (by rw [elapsed_replicate]; omega)
      cases hatt : toastAttached 0 (run (showToast "Saved" "success" initialPage)
        (List.replicate 1000 .tick ++ .toastCloseClick 0 :: List.replicate 300 .tick))
      · rfl
      · have hlt := h.mp hatt
        rw [elapsed_append, elapsed_cons_close, elapsed_replicate, elapsed_replicate] at hlt
        omega⟩

/-! ## Toast timers on reachable pages -/

theorem timersKnown_grow (p q : Page) (h : TimersKnown p) (g : Grow p q) : TimersKnown q := by
  intro x hx j hj
  rcases g.new x hx with hx | hx
  · exact Nat.lt_of_lt_of_le (h x hx j hj) g.length
  · exact hx j hj

theorem grow_of_eq (p q : Page) (ht : q.toasts = p.toasts) (hm : q.timers = p.timers) :
    Grow p q :=
  ⟨by rw [ht], fun x hx => Or.inl (hm ▸ hx)⟩

theorem grow_trans (p q r : Page) (f : Grow p q) (g : Grow q r) : Grow p r := by
  refine ⟨Nat.le_trans f.length g.length, ?_⟩
  intro x hx
  rcases g.new x hx with hx | hx
  · rcases f.new x hx with hx | hx
    · exact Or.inl hx
    · exact Or.inr (fun j hj => Nat.lt_of_lt_of_le (hx j hj) g.length)
  · exact Or.inr hx

theorem grow_setTimeout_of (cb : Callback) (d : Nat) (p q : Page)
    (ht : q.toasts = p.toasts) (hm : q.timers = p.timers)
    (hcb : ∀ j, ofToast { due := q.now + d, cb := cb } j → j < p.toasts.length) :
    Grow p (setTimeout cb d q) := by
  refine ⟨Nat.le_of_eq (congrArg List.length ht).symm, ?_⟩
  intro x hx
  simp only [setTimeout, List.mem_append, List.mem_singleton] at hx
  rcases hx with hx | hx
  · exact Or.inl (hm ▸ hx)
  · subst hx
    refine Or.inr (fun j hj => ?_)
    have := hcb j hj
    simpa [setTimeout, ht] using this

theorem grow_showToast_of (m t : String) (p q : Page)
    (ht : q.toasts = p.toasts) (hm : q.timers = p.timers) :
    Grow p (showToast m t q) := by
  refine ⟨by simp [showToast, setTimeout, ht], ?_⟩
  intro x hx
  simp only [showToast, setTimeout, List.append_assoc, List.mem_append, List.mem_singleton,
    List.mem_cons, List.singleton_append, List.mem_nil_iff, or_false] at hx
  rcases hx with hx | hx | hx
  · exact Or.inl (hm ▸ hx)
  · subst hx
    refine Or.inr (fun j hj => ?_)
    simp [ofToast] at hj
    simp [showToast, setTimeout, hj]
  · subst hx
    refine Or.inr (fun j hj => ?_)
    simp [ofToast] at hj
    simp [showToast, setTimeout, hj]

theorem grow_refl (p : Page) : Grow p p := grow_of_eq p p rfl rfl

theorem grow_closeModal (p : Page) : Grow p (closeModal p) :=
  grow_setTimeout_of .modalHide 300 p _ rfl rfl (by intro j hj; simp [ofToast] at hj)

theorem grow_openModal (p : Page) : Grow p (openModal p) :=
  grow_setTimeout_of .modalContentIn 50 p _ rfl rfl (by intro j hj; simp [ofToast] at hj)

theorem grow_selectPhoto (files : List File) (p : Page) : Grow p (selectPhoto files p) := by
  unfold selectPhoto photoChangeHandler
  split
  · exact grow_of_eq _ _ rfl rfl
  · split
    · exact grow_trans _ _ _ (grow_showToast_of _ _ p (chooseFiles files p) rfl rfl)
        (grow_of_eq _ _ rfl rfl)
    · split
      · exact grow_trans _ _ _ (grow_showToast_of _ _ p (chooseFiles files p) rfl rfl)
          (grow_of_eq _ _ rfl rfl)
      · split
        · exact grow_of_eq _ _ rfl rfl
        · split
          · exact grow_of_eq _ _ rfl rfl
          · exact grow_of_eq _ _ rfl rfl

theorem grow_contactSubmitClick (p : Page) : Grow p (contactSubmitClick p) := by
  unfold contactSubmitClick
  split
  · exact grow_refl p
  · exact grow_of_eq _ _ rfl rfl

theorem grow_highlightField (data : Data) (p : Page) (f : Field) :
    Grow p (highlightField data p f) := by
  cases f <;>
    exact grow_setTimeout_of _ 2000 p _ rfl rfl (by intro j hj; simp [ofToast] at hj)

theorem grow_runHandlers (k : Pending) (o : Outcome) (p q : Page)
    (ht : q.toasts = p.toasts) (hm : q.timers = p.timers) : Grow p (runHandlers k o q) := by
  cases k with
  | photo orig =>
    cases o with
    | rejected => exact grow_showToast_of _ _ p _ ht hm
    | resolved data =>
      simp only [runHandlers, photoThen]
      split
      · exact grow_showToast_of _ _ p _ ht hm
      · exact grow_showToast_of _ _ p _ ht hm
  | contact =>
    cases o with
    | rejected => exact grow_of_eq _ _ ht hm
    | resolved data =>
      simp only [runHandlers, contactThen]
      split
      · refine grow_trans p _ _ ?_
          (grow_setTimeout_of .delayedCloseModal 1500 _ _ rfl rfl
            (by intro j hj; simp [ofToast] at hj))
        simp only [List.foldl_cons, List.foldl_nil]
        refine grow_trans p _ _ ?_ (grow_highlightField data _ .country)
        refine grow_trans p _ _ ?_ (grow_highlightField data _ .city)
        refine grow_trans p _ _ ?_ (grow_highlightField data _ .phone)
        exact grow_of_eq _ _ ht hm
      · exact grow_of_eq _ _ ht hm

theorem grow_settle (k : Nat) (o : Outcome) (p : Page) : Grow p (settle k o p) := by
  unfold settle
  split
  · exact grow_refl p
  · exact grow_runHandlers _ o p _ rfl rfl

theorem grow_toastCloseClick (j : Nat) (p : Page) : Grow p (toastCloseClick j p) := by
  unfold toastCloseClick
  split
  · rename_i hatt
    have hj : j < p.toasts.length := by
      by_contra hge
      have hnone : p.toasts[j]? = none := List.getElem?_eq_none (by omega)
      simp [toastAttached, hnone] at hatt
    refine ⟨Nat.le_of_eq (removeToast_length j p).symm, ?_⟩
    intro x hx
    rw [removeToast_timers, List.mem_append, List.mem_singleton] at hx
    rcases hx with hx | hx
    · exact Or.inl hx
    · subst hx
      refine Or.inr (fun k hk => ?_)
      simp [ofToast] at hk
      rw [removeToast_length, ← hk]
      exact hj
  · exact grow_refl p

theorem grow_modalClick (b : Bool) (p : Page) : Grow p (modalClick b p) := by
  unfold modalClick
  split
  · exact grow_closeModal p
  · exact grow_refl p

theorem grow_keydown (key : String) (p : Page) : Grow p (keydown key p) := by
  unfold keydown
  split
  · split
    · exact grow_closeModal p
    · exact grow_refl p
  · exact grow_refl p

theorem timersKnown_tick (p : Page) (h : TimersKnown p) : TimersKnown (tick p) := by
  intro x hx j hj
  rw [tick_length]
  rcases (tick_timers p x).mp hx with ⟨hx, _⟩ | ⟨y, hy, _, hsp⟩
  · exact h x hx j hj
  · have hy' := h y hy
    cases hcb : y.cb <;> rw [hcb] at hsp <;> simp [spawned] at hsp
    · subst hsp
      simp [ofToast] at hj
      exact hy' j (Or.inr (Or.inl (by rw [hcb, hj])))
    · subst hsp
      simp [ofToast] at hj

theorem timersKnown_step (p : Page) (e : Event) (h : TimersKnown p) :
    TimersKnown (step p e) := by
  cases e with
  | tick => exact timersKnown_tick p h
  | toastCloseClick j => exact timersKnown_grow _ _ h (grow_toastCloseClick j p)
  | selectPhoto files => exact timersKnown_grow _ _ h (grow_selectPhoto files p)
  | contactSubmitClick => exact timersKnown_grow _ _ h (grow_contactSubmitClick p)
  | settle k o => exact timersKnown_grow _ _ h (grow_settle k o p)
  | openModalClick => exact timersKnown_grow _ _ h (grow_openModal p)
  | closeModalClick => exact timersKnown_grow _ _ h (grow_closeModal p)
  | modalClick b => exact timersKnown_grow _ _ h (grow_modalClick b p)
  | keydown key => exact timersKnown_grow _ _ h (grow_keydown key p)

/-- The toast timers of every page reached from a page right after load belong
to existing toasts. -/
theorem timersKnown_run (es : List Event) : TimersKnown (run initialPage es) := by
  have hgen : ∀ (es : List Event) (p : Page), TimersKnown p → TimersKnown (run p es) := by
    intro es
    induction es with
    | nil => intro p h; exact h
    | cons e es ih => intro p h; exact ih (step p e) (timersKnown_step p e h)
  exact hgen es initialPage (fun x hx => absurd hx (List.not_mem_nil x))

/-! ## The sidebar and the scroll lock -/

theorem classContains_classRemove_single (cl : ClassList) (t : String) :
    classContains (classRemove cl [t]) t = false := by
  simp [classContains, classRemove]

theorem navOk_openSidebar (n : NavPage) (h : NavOk n) : NavOk (openSidebar n) := by
  obtain ⟨hs, hb, hl⟩ := h
  cases hsb : n.sidebar with
  | none => simp [hsb] at hs
  | some sb =>
    cases hbd : n.sidebarBackdrop with
    | none => simp [hbd] at hb
    | some bd =>
      by_cases hw : n.innerWidth < 768
      · refine ⟨?_, ?_, ?_⟩ <;>
          simp [openSidebar, hsb, hbd, hw, LockMatches, bodyLocked, sidebarOpen,
            classContains_classAdd_single, classContains_classRemove_single]
      · simp only [LockMatches, bodyLocked, sidebarOpen, hsb, hw, and_false, iff_false] at hl
        refine ⟨?_, ?_, ?_⟩ <;>
          simp [openSidebar, hsb, hbd, hw, hl, LockMatches, bodyLocked, sidebarOpen,
            classContains_classAdd_single, classContains_classRemove_single]

theorem navOk_closeSidebar (n : NavPage) (h : NavOk n) : NavOk (closeSidebar n) := by
  obtain ⟨hs, hb, hl⟩ := h
  cases hsb : n.sidebar with
  | none => simp [hsb] at hs
  | some sb =>
    cases hbd : n.sidebarBackdrop with
    | none => simp [hbd] at hb
    | some bd =>
      refine ⟨?_, ?_, ?_⟩ <;>
        simp [closeSidebar, hsb, hbd, LockMatches, bodyLocked, sidebarOpen,
          classContains_classAdd_single, classContains_classRemove_single]

theorem navOk_outsideCloseDropdown (t : Target) (n : NavPage) (h : NavOk n) :
    NavOk (outsideCloseDropdown t n) := by
  obtain ⟨hs, hb, hl⟩ := h
  unfold outsideCloseDropdown
  split
  · split
    · exact ⟨hs, hb, hl⟩
    · exact ⟨hs, hb, hl⟩
  · exact ⟨hs, hb, hl⟩

theorem navOk_documentClick (t : Target) (n : NavPage) (h : NavOk n) :
    NavOk (documentClick t n) := by
  apply navOk_outsideCloseDropdown
  unfold outsideCloseSidebar
  split
  · split
    · split
      · exact navOk_closeSidebar n h
      · exact h
    · exact h
  · exact h

theorem navOk_addDataClick (n : NavPage) (h : NavOk n) : NavOk (addDataClick n) := by
  obtain ⟨hs, hb, hl⟩ := h
  unfold addDataClick
  split
  · split
    · exact ⟨hs, hb, hl⟩
    · exact ⟨hs, hb, hl⟩
  · exact ⟨hs, hb, hl⟩

theorem navOk_resize (w : Nat) (n : NavPage) (h : NavOk n) : NavOk (resize w n) := by
  obtain ⟨hs, hb, hl⟩ := h
  cases hsb : n.sidebar with
  | none => simp [hsb] at hs
  | some sb =>
    by_cases hw : w ≥ 768
    · have hw' : ¬ w < 768 := by omega
      refine ⟨?_, ?_, ?_⟩ <;>
        simp [resize, hsb, hw, hw', hs, hb, LockMatches, bodyLocked, sidebarOpen,
          classContains_classRemove_single]
    · have hw' : w < 768 := by omega
      cases hc : classContains sb "-translate-x-full"
      · refine ⟨?_, ?_, ?_⟩ <;>
          simp [resize, hsb, hw, hw', hc, hs, hb, LockMatches, bodyLocked, sidebarOpen,
            classContains_classAdd_single]
      · simp only [LockMatches, bodyLocked, sidebarOpen, hsb, hc, Bool.not_true,
          Bool.false_eq_true, false_and, iff_false] at hl
        refine ⟨?_, ?_, ?_⟩ <;>
          simp [resize, hsb, hw, hw', hc, hs, hb, hl, LockMatches, bodyLocked, sidebarOpen]

theorem navOk_navStep (n : NavPage) (e : NavEvent) (h : NavOk n) : NavOk (navStep n e) := by
  cases e with
  | openButtonClick =>
    simp only [navStep]; split
    · exact navOk_openSidebar n h
    · exact h
  | closeButtonClick t =>
    simp only [navStep]; split
    · exact navOk_documentClick t _ (navOk_closeSidebar n h)
    · exact h
  | backdropClick t =>
    simp only [navStep]; split
    · exact navOk_documentClick t _ (navOk_closeSidebar n h)
    · exact h
  | otherClick t => exact navOk_documentClick t n h
  | addDataClick => exact navOk_addDataClick n h
  | resize w => exact navOk_resize w n h

theorem navOk_navRun (es : List NavEvent) (n : NavPage) (h : NavOk n) : NavOk (navRun n es) := by
  induction es generalizing n with
  | nil => exact h
  | cons e es ih => exact ih (navStep n e) (navOk_navStep n e h)

/-- C10: with sidebar and backdrop present, if the body is locked exactly when
the sidebar is open on a window narrower than 768, then the same holds after
every sequence of clicks on the open button, the close button, the backdrop or
elsewhere, and of resize events.  So the body is never locked at a width of 768
or more, and never while the sidebar is closed. -/
theorem sidebar_lock_invariant (n : NavPage) (es : List NavEvent)
    (hsidebar : n.sidebar.isSome = true) (hbackdrop : n.sidebarBackdrop.isSome = true)
    (hlock : bodyLocked n = true ↔ (sidebarOpen n = true ∧ n.innerWidth < 768)) :
    (bodyLocked (navRun n es) = true ↔
      (sidebarOpen (navRun n es) = true ∧ (navRun n es).innerWidth < 768)) ∧
    ((navRun n es).innerWidth ≥ 768 → bodyLocked (navRun n es) = false) ∧
    (sidebarOpen (navRun n es) = false → bodyLocked (navRun n es) = false) := by
  have h : LockMatches (navRun n es) := (navOk_navRun es n ⟨hsidebar, hbackdrop, hlock⟩).lock
  unfold LockMatches at h
  refine ⟨h, ?_, ?_⟩
  · intro hw
    cases hb : bodyLocked (navRun n es)
    · rfl
    · have := (h.mp hb).2; omega
  · intro ho
    cases hb : bodyLocked (navRun n es)
    · rfl
    · have := (h.mp hb).1; simp [ho] at this

/-- C10 on a narrow page: the sidebar is opened, the window is widened and
narrowed again, and the backdrop is clicked. -/
theorem sidebar_lock_invariant_witness :
    bodyLocked (navRun mobileNav [.openButtonClick]) = true ∧
    bodyLocked (navRun mobileNav [.openButtonClick, .resize 1024]) = false ∧
    bodyLocked (navRun mobileNav [.openButtonClick, .resize 1024, .resize 500]) = true ∧
    bodyLocked (navRun mobileNav
      [.openButtonClick, .resize 1024, .resize 500, .backdropClick pageContent]) = false :=
  ⟨by decide,
    (sidebar_lock_invariant mobileNav [.openButtonClick, .resize 1024] rfl rfl (by decide)).2.1
      (by decide),
    by decide,
    (sidebar_lock_invariant mobileNav
      [.openButtonClick, .resize 1024, .resize 500, .backdropClick pageContent] rfl rfl
      (by decide)).2.2 (by decide)⟩

/-! ## The number of KB reported for a rejected file -/

/-- C11: a file above `122880` bytes is rejected with a toast that reports
`k = Math.round(size / 1024)` KB, the integer nearest to `size / 1024` with
halves going up.  That number is at least 120; it is 120, the stated maximum,
exactly when `122881 ≤ size ≤ 123391`; from `123392` bytes on it is above 120. -/
theorem reported_kb_bounds (p : Page) (file : File) (rest : List File)
    (hsize : file.size > 122880) :
    lastToastText (selectPhoto (file :: rest) p) =
      some ("File size too large. Maximum allowed size is 120KB. Your file is " ++
        toString (roundKB file.size) ++ "KB.") ∧
    (2 * (1024 * roundKB file.size) ≤ 2 * file.size + 1024 ∧
      2 * file.size < 2 * (1024 * roundKB file.size) + 1024) ∧
    120 ≤ roundKB file.size ∧
    (roundKB file.size = 120 ↔ 122881 ≤ file.size ∧ file.size ≤ 123391) ∧
    (123392 ≤ file.size → 120 < roundKB file.size) := by
  have hmax : file.size > maxSize := by unfold maxSize; omega
  refine ⟨?_, ?_, ?_, ?_, ?_⟩
  · rw [selectPhoto_tooLarge p file rest hmax]
    exact lastToastText_showToast _ _ _
  · unfold roundKB; omega
  · unfold roundKB; omega
  · unfold roundKB; omega
  · intro h; unfold roundKB; omega

/-- C11 at the edge: a file of 123391 bytes is rejected and reported as `120KB`. -/
theorem reported_kb_bounds_witness :
    edgeJpeg.size > 122880 ∧
    lastToastText (selectPhoto [edgeJpeg] initialPage) =
      some "File size too large. Maximum allowed size is 120KB. Your file is 120KB." ∧
    roundKB edgeJpeg.size = 120 :=
  ⟨by decide,
    (reported_kb_bounds initialPage edgeJpeg [] (by decide)).1,
    (reported_kb_bounds initialPage edgeJpeg [] (by decide)).2.2.2.1.mpr (by decide)⟩

end Elog
